import Mathlib

/-!
# BhFitSandboxProcessor

A shallow embedding of `processors/src/BhFitSandboxProcessor.cxx` (hpstr) and the
properties of its toy-generation and orchestration harness.

Conventions of the embedding:

* C++ `int` values are `Int`; `double` values are exact rationals (`ℚ`).
* The ROOT classes the processor uses (`TAxis`, `TH1F`, `TRandom3`, `TFile`) and the
  `BumpHunter` search engine are library code outside this source file.  The histogram
  operations the processor calls are written out after ROOT's fixed-bin `TAxis`/`TH1`
  code; the random source and the search engine are interfaces with an explicit,
  threaded state, so every statement below holds for every implementation of them.
* Each member function returns the new processor state together with the list of
  calls it made on its collaborators, in program order (`Event`).
* What ROOT takes from outside the program is an explicit input: the `TUUID` that
  `SetSeed(0)` generates is an argument of `process`, and the current directory
  `gDirectory`, into which `Write()` stores, is carried with the processor state.
-/

namespace BhFitSandbox

/-! ## Control flow -/

/-- The loop `for (int i = 0; i < n; i++) acc = body(i, acc);`. -/
def forLoop {α : Type} (n : Nat) (body : Nat → α → α) (init : α) : α :=
  (List.range n).foldl (fun acc i => body i acc) init

/-- The C conversion `int(x)` of a real value: truncation toward zero. -/
def truncInt (q : ℚ) : Int :=
  if 0 ≤ q then Rat.floor q else Rat.ceil q

/-! ## ROOT histograms (fixed-width bins) -/

/-- A `TAxis` with `fNbins` equal-width bins over `[fXmin, fXmax]`. -/
structure TAxis where
  fNbins : Nat
  fXmin : ℚ
  fXmax : ℚ

namespace TAxis

/-- The width `(fXmax - fXmin) / Double_t(fNbins)` of one bin. -/
def binWidth (a : TAxis) : ℚ :=
  (a.fXmax - a.fXmin) / (a.fNbins : ℚ)

/-- `TAxis::GetBinCenter`: `fXmin + (bin-1) * binwidth + 0.5 * binwidth`. -/
def GetBinCenter (a : TAxis) (bin : Int) : ℚ :=
  a.fXmin + ((bin : ℚ) - 1) * a.binWidth + (1 / 2) * a.binWidth

/-- `TAxis::GetBinLowEdge`: `fXmin + (bin-1) * binwidth`. -/
def GetBinLowEdge (a : TAxis) (bin : Int) : ℚ :=
  a.fXmin + ((bin : ℚ) - 1) * a.binWidth

/-- `TAxis::GetBinUpEdge`: `fXmin + bin * binwidth`. -/
def GetBinUpEdge (a : TAxis) (bin : Int) : ℚ :=
  a.fXmin + (bin : ℚ) * a.binWidth

/-- `TAxis::FindBin` for a non-extendable axis: `0` is the underflow cell,
`fNbins + 1` the overflow cell. -/
def FindBin (a : TAxis) (x : ℚ) : Int :=
  if x < a.fXmin then 0
  else if ¬ (x < a.fXmax) then (a.fNbins : Int) + 1
  else 1 + truncInt ((a.fNbins : ℚ) * (x - a.fXmin) / (a.fXmax - a.fXmin))

end TAxis

/-- A one-dimensional `TH1F`.  `fArray` holds the `fNcells = fNbins + 2` cell
contents (cell `0` underflow, cells `1 .. fNbins` the bins, cell `fNbins + 1`
overflow) and `fSumw2` the sums of squared weights, of size zero until `Sumw2()`
creates them.  All fills of the processor have weight one, so both arrays hold
counts; the single-precision storage of `TH1F` represents every count below `2^24`
exactly and is not modelled separately, nor are the running moments `fTsumw...`,
which no claim reads. -/
structure TH1F where
  fName : String
  fTitle : String
  fXaxis : TAxis
  fArray : Array Nat
  fSumw2 : Array Nat
  fEntries : Nat

namespace TH1F

/-- The constructor `TH1F(name, title, nbinsx, xlow, xup)`; ROOT replaces a bin count
of zero by one. -/
def create (name title : String) (nbinsx : Nat) (xlow xup : ℚ) : TH1F :=
  { fName := name
    fTitle := title
    fXaxis := { fNbins := if nbinsx = 0 then 1 else nbinsx, fXmin := xlow, fXmax := xup }
    fArray := mkArray ((if nbinsx = 0 then 1 else nbinsx) + 2) 0
    fSumw2 := #[]
    fEntries := 0 }

/-- `TH1::Sumw2()`: create the sum-of-squared-weights array, one cell per histogram
cell, seeded with the current contents when the histogram already has entries; a
call on a histogram that has the array changes nothing. -/
def Sumw2 (h : TH1F) : TH1F :=
  if h.fSumw2.size = h.fArray.size then h
  else { h with fSumw2 := if 0 < h.fEntries then h.fArray else mkArray h.fArray.size 0 }

/-- `TH1::GetBinCenter`. -/
def GetBinCenter (h : TH1F) (bin : Int) : ℚ :=
  h.fXaxis.GetBinCenter bin

/-- `TH1::Fill(x)`: one unit-weight entry in the cell `FindBin(x)`, counted in
`fSumw2` too when that array exists. -/
def Fill (h : TH1F) (x : ℚ) : TH1F :=
  let bin := h.fXaxis.FindBin x
  if bin < 0 then { h with fEntries := h.fEntries + 1 }
  else
    { h with
      fEntries := h.fEntries + 1
      fArray := h.fArray.modify bin.toNat (fun c => c + 1)
      fSumw2 :=
        if h.fSumw2.size = 0 then h.fSumw2
        else h.fSumw2.modify bin.toNat (fun w => w + 1) }

/-- `TH1::GetBinContent`: a negative bin reads the underflow cell, a bin past the
last cell reads the overflow cell. -/
def GetBinContent (h : TH1F) (bin : Int) : Nat :=
  if bin < 0 then h.fArray.getD 0 0
  else if (h.fArray.size : Int) ≤ bin then h.fArray.getD (h.fArray.size - 1) 0
  else h.fArray.getD bin.toNat 0

/-- The search `for (bin = first; bin <= last; bin++) if (content(bin) > threshold)
return bin;` over the `fuel = last - first + 1` remaining bins, `-1` when none. -/
def firstAboveFrom (h : TH1F) (threshold : ℚ) : Nat → Int → Int
  | 0, _ => -1
  | fuel + 1, bin =>
    if threshold < (h.GetBinContent bin : ℚ) then bin
    else firstAboveFrom h threshold fuel (bin + 1)

/-- The search `for (bin = last; bin >= first; bin--) if (content(bin) > threshold)
return bin;`, `-1` when none. -/
def lastAboveFrom (h : TH1F) (threshold : ℚ) : Nat → Int → Int
  | 0, _ => -1
  | fuel + 1, bin =>
    if threshold < (h.GetBinContent bin : ℚ) then bin
    else lastAboveFrom h threshold fuel (bin - 1)

/-- `TH1::FindFirstBinAbove()` with its default arguments (threshold `0`, x axis,
all bins `1 .. fNbins`). -/
def FindFirstBinAbove (h : TH1F) : Int :=
  firstAboveFrom h 0 h.fXaxis.fNbins 1

/-- `TH1::FindLastBinAbove()` with its default arguments. -/
def FindLastBinAbove (h : TH1F) : Int :=
  lastAboveFrom h 0 h.fXaxis.fNbins h.fXaxis.fNbins

/-- The sum of the contents of the bins `1 .. fNbins` (`TH1::Integral()`). -/
def Integral (h : TH1F) : Nat :=
  ((List.range h.fXaxis.fNbins).map (fun (i : Nat) => h.GetBinContent ((i : Int) + 1))).sum

/-- The statement `for (ff = 0; ff < nFills; ff++) h->Fill(h->GetBinCenter(bin));`. -/
def fillCenter (h : TH1F) (bin : Int) (nFills : Int) : TH1F :=
  forLoop nFills.toNat (fun _ acc => acc.Fill (acc.GetBinCenter bin)) h

/-- The histogram `h` with `n` more unit entries in cell `bin`. -/
def addEntries (h : TH1F) (bin : Int) (n : Nat) : TH1F :=
  { h with
    fEntries := h.fEntries + n
    fArray := h.fArray.modify bin.toNat (fun c => c + n)
    fSumw2 := h.fSumw2.modify bin.toNat (fun w => w + n) }

end TH1F

/-! ## Configuration -/

/-- One configured value of a `ParameterSet`. -/
inductive Element where
  | integer (v : Int)
  | double (v : ℚ)
  | string (v : String)

/-- Modelled from the spec: the framework class `ParameterSet` (declared outside this
source file), a table of typed options.  Reading a required option that is missing
or malformed (held with another type) raises `std::runtime_error`, modelled as
`Except.error` carrying the message; an optional string falls back to its default
only when the option is missing. -/
structure ParameterSet where
  elements_ : List (String × Element)

namespace ParameterSet

/-- The message of the exception for a missing option. -/
def missing (name : String) : String :=
  "Parameter '" ++ name ++ "' does not exist in list of parameters."

/-- The message of the exception for an option of another type. -/
def malformed (name kind : String) : String :=
  "Parameter '" ++ name ++ "' is not " ++ kind ++ "."

/-- `ParameterSet::getInteger(name)`. -/
def getInteger (ps : ParameterSet) (name : String) : Except String Int :=
  match ps.elements_.lookup name with
  | none => .error (missing name)
  | some (.integer v) => .ok v
  | some _ => .error (malformed name "an integer")

/-- `ParameterSet::getDouble(name)`. -/
def getDouble (ps : ParameterSet) (name : String) : Except String ℚ :=
  match ps.elements_.lookup name with
  | none => .error (missing name)
  | some (.double v) => .ok v
  | some _ => .error (malformed name "a double")

/-- `ParameterSet::getString(name)`. -/
def getString (ps : ParameterSet) (name : String) : Except String String :=
  match ps.elements_.lookup name with
  | none => .error (missing name)
  | some (.string v) => .ok v
  | some _ => .error (malformed name "a string")

/-- `ParameterSet::getString(name, defaultValue)`. -/
def getStringOr (ps : ParameterSet) (name defaultValue : String) : Except String String :=
  match ps.elements_.lookup name with
  | none => .ok defaultValue
  | some (.string v) => .ok v
  | some _ => .error (malformed name "a string")

end ParameterSet

/-! ## Collaborators -/

/-- The random source `TRandom3` as an explicit stream: every draw takes the
generator state and returns the drawn value with the next state.  `ctor` is the
state of a default-constructed generator, `seedState seed` the state `SetSeed` builds
from a non-zero seed, and `uuidState uuid` the state it builds for seed `0`, which
ROOT fills from a freshly generated `TUUID` (unique per call). -/
structure TRandom3 (σ : Type) where
  ctor : σ
  seedState : Nat → σ
  uuidState : Nat → σ
  Uniform : σ → ℚ → ℚ × σ
  Poisson : σ → ℚ → Int × σ

/-- `TRandom3::SetSeed(seed)` on a generator in state `s`: the whole state is
replaced, from the seed when it is non-zero and from the `TUUID` generated during the
call (`uuid`) when it is `0`. -/
def TRandom3.SetSeed {σ : Type} (rng : TRandom3 σ) (s : σ) (seed : Nat) (uuid : Nat) : σ :=
  let _ := s
  if seed = 0 then rng.uuidState uuid else rng.seedState seed

/-- The search engine `BumpHunter` as a state-passing interface over its object
state `ε`, with results of type `ρ` (`HpsFitResult*`).  `create` is the constructor
`BumpHunter(bkg_model, poly_order, win_factor, res_scale, asymptotic_limit)`.  The
engine reads the histogram it is handed and leaves its bin contents and ROOT's
current directory as they are. -/
structure BumpHunter (ε ρ : Type) where
  create : Nat → Int → Int → ℚ → Bool → ε
  setBounds : ε → ℚ → ℚ → ε
  enableDebug : ε → ε
  performSearch : ε → TH1F → ℚ → Bool → Bool → ρ × ε

/-- An object a `Write()` call can persist. -/
inductive TObject (ρ : Type) where
  | hist (h : TH1F)
  | fitResult (r : ρ)

/-- A value of ROOT's global current directory `gDirectory`, into which `Write()`
stores.  `created fname` is the file made by `new TFile(fname, "RECREATE")` once `cd()`
was called on it; `opened fname` is what `new TFile(fname)` leaves current: the file
opened for reading or, when it cannot be opened, `gROOT`; in neither case a file
created for output. -/
inductive Directory where
  | gROOT
  | created (fname : String)
  | opened (fname : String)
  deriving DecidableEq

/-- A call the processor makes on a collaborator.  `cout` carries the items inserted
by one output statement; `Write` records the call `obj->Write()` with the current
directory the object is stored into; `performSearch` carries the arguments and the
returned result. -/
inductive Event (ρ : Type) where
  | cout (items : List String)
  | TFileOpen (fname : String) (option : String)
  | cd (fname : String)
  | Get (fname : String) (hname : String)
  | Write (gDirectory : Directory) (obj : TObject ρ)
  | SetSeed (seed : Nat)
  | newBumpHunter (bkg_model : Nat) (poly_order win_factor : Int) (res_scale : ℚ)
      (asymptotic_limit : Bool)
  | setBounds (first second : ℚ)
  | enableDebug
  | performSearch (hist : TH1F) (mass_hypo : ℚ) (flag1 flag2 : Bool) (ret : ρ)

/-- The text `std::endl` inserts. -/
def endl : String := "\n"

/-! ## The processor -/

/-- The data members of `BhFitSandboxProcessor`, and with them ROOT's global current
directory `gDirectory`, which `initialize` sets and `process` writes into.  The class
declaration is outside this source file, so the members' initial values are left
open: every statement below quantifies over the state the member functions start
from. -/
structure BhFitSandboxProcessor (ε : Type) where
  debug_ : Int
  massSpectrum_ : String
  mass_hypo_ : ℚ
  win_factor_ : Int
  poly_order_ : Int
  seed_ : Int
  nToys_ : Int
  toy_sig_samples_ : Int
  bkg_mult_ : Int
  res_scale_ : ℚ
  signal_shape_h_name_ : String
  signal_shape_h_file_ : String
  asymptotic_limit_ : Bool
  bkg_model_ : Nat
  outF_ : Option String
  mass_spec_h : Option TH1F
  signal_shape_h_ : Option TH1F
  bump_hunter_ : Option ε
  gDirectory : Directory

/-- The `try` block of `configure`: the reads and assignments in source order.  A
read that throws leaves the block at once; the members assigned so far keep their
new values.  The second component is the `what()` of the caught exception. -/
def configureTry {ε : Type} (parameters : ParameterSet) (p : BhFitSandboxProcessor ε) :
    BhFitSandboxProcessor ε × Option String :=
  match parameters.getInteger "debug" with
  | .error what => (p, some what)
  | .ok v =>
  let p := { p with debug_ := v }
  match parameters.getString "massSpectrum" with
  | .error what => (p, some what)
  | .ok v =>
  let p := { p with massSpectrum_ := v }
  match parameters.getDouble "mass_hypo" with
  | .error what => (p, some what)
  | .ok v =>
  let p := { p with mass_hypo_ := v }
  match parameters.getInteger "win_factor" with
  | .error what => (p, some what)
  | .ok v =>
  let p := { p with win_factor_ := v }
  match parameters.getInteger "poly_order" with
  | .error what => (p, some what)
  | .ok v =>
  let p := { p with poly_order_ := v }
  match parameters.getInteger "seed" with
  | .error what => (p, some what)
  | .ok v =>
  let p := { p with seed_ := v }
  match parameters.getInteger "nToys" with
  | .error what => (p, some what)
  | .ok v =>
  let p := { p with nToys_ := v }
  match parameters.getInteger "toy_sig_samples" with
  | .error what => (p, some what)
  | .ok v =>
  let p := { p with toy_sig_samples_ := v }
  match parameters.getInteger "toy_bkg_mult" with
  | .error what => (p, some what)
  | .ok v =>
  let p := { p with bkg_mult_ := v }
  match parameters.getDouble "res_scale" with
  | .error what => (p, some what)
  | .ok v =>
  let p := { p with res_scale_ := v }
  match parameters.getStringOr "signal_shape_h_name" "" with
  | .error what => (p, some what)
  | .ok v =>
  let p := { p with signal_shape_h_name_ := v }
  match parameters.getStringOr "signal_shape_h_file" "" with
  | .error what => (p, some what)
  | .ok v =>
  let p := { p with signal_shape_h_file_ := v }
  (p, none)

/-- `BhFitSandboxProcessor::configure`. -/
def configure {ε ρ : Type} (p : BhFitSandboxProcessor ε) (parameters : ParameterSet) :
    BhFitSandboxProcessor ε × List (Event ρ) :=
  let r := configureTry parameters p
  match r.2 with
  | none => (r.1, [.cout ["Configuring BhFitSandboxProcessor", endl]])
  | some what => (r.1, [.cout ["Configuring BhFitSandboxProcessor", endl], .cout [what, endl]])

/-- The first warning text of `initialize`. -/
def warnNoHistogram : String :=
  "[BumpHunter] :: !! WARNING !! Signal injection file, but no histogram, specified! Defaulting to Gaussian."

/-- The second warning text of `initialize`. -/
def warnNoFile : String :=
  "[BumpHunter] :: !! WARNING !! Signal injection histogram, but no file, specified! Defaulting to Gaussian."

/-- The background spectrum `initialize` builds: 6000 bins over `[0.0, 0.3]`, `Sumw2()`,
then for each bin 100 fills at its centre. -/
def buildMassSpectrum : TH1F :=
  forLoop 6000 (fun iBin h => h.fillCenter ((iBin : Int) + 1) 100)
    (TH1F.create "mass_spec_h" "mass_spec_h" 6000 0 (3 / 10)).Sumw2

/-- The signal-shape block of `initialize`: the new value of `signal_shape_h_` and the
calls made.  `files fname hname` is the object `TFile(fname).Get(hname)` yields (null
when there is none). -/
def loadSignalShape {ρ : Type} (files : String → String → Option TH1F)
    (signal_shape_h_file_ signal_shape_h_name_ : String) (signal_shape_h_ : Option TH1F) :
    Option TH1F × List (Event ρ) :=
  if signal_shape_h_file_ ≠ "" ∧ signal_shape_h_name_ ≠ "" then
    (files signal_shape_h_file_ signal_shape_h_name_,
      [.TFileOpen signal_shape_h_file_ "", .Get signal_shape_h_file_ signal_shape_h_name_])
  else if signal_shape_h_file_ ≠ "" ∧ signal_shape_h_name_ = "" then
    (signal_shape_h_, [.cout [warnNoHistogram]])
  else if signal_shape_h_file_ = "" ∧ signal_shape_h_name_ ≠ "" then
    (signal_shape_h_, [.cout [warnNoFile]])
  else (signal_shape_h_, [])

/-- The current directory after the signal-shape block of `initialize`: the
`new TFile(signal_shape_h_file_)` of its first branch makes what it opens current, and
no `cd()` follows; the other branches leave the output file current. -/
def directoryAfterSignalShape (outFilename signal_shape_h_file_ signal_shape_h_name_ : String) :
    Directory :=
  if signal_shape_h_file_ ≠ "" ∧ signal_shape_h_name_ ≠ "" then .opened signal_shape_h_file_
  else .created outFilename

/-- `BhFitSandboxProcessor::initialize` (the bare name is reserved in Lean).  The
output file is taken to open. -/
def initializeProcessor {ε ρ : Type} (bh : BumpHunter ε ρ) (files : String → String → Option TH1F)
    (p : BhFitSandboxProcessor ε) (inFilename outFilename : String) :
    BhFitSandboxProcessor ε × List (Event ρ) :=
  let _ := inFilename
  let spec := buildMassSpectrum
  let sig := loadSignalShape files p.signal_shape_h_file_ p.signal_shape_h_name_ p.signal_shape_h_
  let e0 := bh.create p.bkg_model_ p.poly_order_ p.win_factor_ p.res_scale_ p.asymptotic_limit_
  let first := spec.fXaxis.GetBinUpEdge spec.FindFirstBinAbove
  let second := spec.fXaxis.GetBinLowEdge spec.FindLastBinAbove
  let e1 := bh.setBounds e0 first second
  ({ p with
      outF_ := some outFilename
      mass_spec_h := some spec
      signal_shape_h_ := sig.1
      bump_hunter_ := some (if 0 < p.debug_ then bh.enableDebug e1 else e1)
      gDirectory :=
        directoryAfterSignalShape outFilename p.signal_shape_h_file_ p.signal_shape_h_name_ },
    [.TFileOpen outFilename "RECREATE", .cd outFilename,
      .Write (.created outFilename) (.hist spec),
      .cout ["Signal Shape File :: ", p.signal_shape_h_file_, endl],
      .cout ["Signal Shape Hist :: ", p.signal_shape_h_name_, endl]]
    ++ sig.2
    ++ [.newBumpHunter p.bkg_model_ p.poly_order_ p.win_factor_ p.res_scale_ p.asymptotic_limit_,
        .setBounds first second]
    ++ (if 0 < p.debug_ then [.enableDebug] else []))

/-- The name `Form("toy%i_h", iToy)`. -/
def toyName (iToy : Nat) : String :=
  "toy" ++ toString iToy ++ "_h"

/-- The body of the bin loop of `process`:
`int nFills = rand.Poisson(rand.Uniform(100000));` followed by `nFills` fills at the
centre of bin `iBin + 1`. -/
def fillToyBin {σ : Type} (rng : TRandom3 σ) (iBin : Nat) (acc : TH1F × σ) : TH1F × σ :=
  let u := rng.Uniform acc.2 100000
  let n := rng.Poisson u.2 u.1
  (acc.1.fillCenter ((iBin : Int) + 1) n.1, n.2)

/-- The state of the first loop of `process`. -/
structure GenState (σ ρ : Type) where
  toy_hists : List TH1F
  rand : σ
  log : List (Event ρ)

/-- The body of the toy loop of `process`. -/
def generateToy {σ ρ : Type} (rng : TRandom3 σ) (iToy : Nat) (st : GenState σ ρ) :
    GenState σ ρ :=
  let h := forLoop 6000 (fillToyBin rng)
    ((TH1F.create (toyName iToy) (toyName iToy) 6000 0 (3 / 10)).Sumw2, st.rand)
  { toy_hists := st.toy_hists ++ [h.1]
    rand := h.2
    log := st.log ++ [.cout ["Generating Toy ", toString iToy, endl]] }

/-- The state of the second loop of `process`. -/
structure FitState (ε ρ : Type) where
  toy_results : List ρ
  bump_hunter_ : Option ε
  log : List (Event ρ)

/-- The second loop of `process` over the remaining histograms, `toyFitN` being the
running counter.  Calling `performSearch` through a null `bump_hunter_` has no
defined behaviour (`none`). -/
def fitToys {ε ρ : Type} (bh : BumpHunter ε ρ) (gDirectory : Directory) (mass_hypo_ : ℚ) :
    List TH1F → Nat → Option ε → Option (FitState ε ρ)
  | [], _, e => some { toy_results := [], bump_hunter_ := e, log := [] }
  | _ :: _, _, none => none
  | hist :: rest, toyFitN, some e =>
    let r := bh.performSearch e hist mass_hypo_ false false
    (fitToys bh gDirectory mass_hypo_ rest (toyFitN + 1) (some r.2)).map fun st =>
      { toy_results := r.1 :: st.toy_results
        bump_hunter_ := st.bump_hunter_
        log := .cout ["Fitting Toy ", toString toyFitN, endl]
          :: .performSearch hist mass_hypo_ false false r.1
          :: .Write gDirectory (.hist hist) :: st.log }

/-- What a call of `process` leaves behind. -/
structure ProcessResult (σ ε ρ : Type) where
  ret : Bool
  toy_hists : List TH1F
  toy_results : List ρ
  rand : σ
  bump_hunter_ : Option ε
  log : List (Event ρ)

/-- The first loop of `process` with the seeding before it; `uuid` is the `TUUID`
generated during the `SetSeed(0)` call. -/
def generateToys {σ ρ : Type} (rng : TRandom3 σ) (uuid : Nat) (nToys_ : Int) : GenState σ ρ :=
  forLoop nToys_.toNat (generateToy rng)
    { toy_hists := [], rand := rng.SetSeed rng.ctor 0 uuid, log := [.SetSeed 0] }

/-- `BhFitSandboxProcessor::process`, in a run whose `SetSeed(0)` call generates the
`TUUID` `uuid`. -/
def process {σ ε ρ : Type} (rng : TRandom3 σ) (bh : BumpHunter ε ρ) (uuid : Nat)
    (p : BhFitSandboxProcessor ε) : Option (ProcessResult σ ε ρ) :=
  let gen : GenState σ ρ := generateToys rng uuid p.nToys_
  (fitToys bh p.gDirectory p.mass_hypo_ gen.toy_hists 0 p.bump_hunter_).map fun fit =>
    { ret := true
      toy_hists := gen.toy_hists
      toy_results := fit.toy_results
      rand := gen.rand
      bump_hunter_ := fit.bump_hunter_
      log := gen.log ++ fit.log }

/-! ## The draw stream and the filled histogram, stated apart from the loops -/

/-- One step of the draw stream: a `Uniform(100000)` draw, then a `Poisson` draw
whose mean is the value just drawn. -/
def drawPair {σ : Type} (rng : TRandom3 σ) (s : σ) : Int × σ :=
  rng.Poisson (rng.Uniform s 100000).2 (rng.Uniform s 100000).1

/-- The generator state after `j` Uniform-then-Poisson pairs drawn from state `s`. -/
def streamState {σ : Type} (rng : TRandom3 σ) (s : σ) : Nat → σ
  | 0 => s
  | j + 1 => (drawPair rng (streamState rng s j)).2

/-- The mean `mu` drawn by the `j`-th pair (counting from zero). -/
def nthMean {σ : Type} (rng : TRandom3 σ) (s : σ) (j : Nat) : ℚ :=
  (rng.Uniform (streamState rng s j) 100000).1

/-- The count `n` drawn by the `j`-th pair: the Poisson draw taken right after the
`j`-th Uniform draw, with mean `nthMean rng s j`. -/
def nthCount {σ : Type} (rng : TRandom3 σ) (s : σ) (j : Nat) : Int :=
  (rng.Poisson (rng.Uniform (streamState rng s j) 100000).2 (nthMean rng s j)).1

/-- The histogram `h` after bin `i + 1` received `c i` more unit entries, for every
`i < m`. -/
def TH1F.fillCounts (h : TH1F) (c : Nat → Nat) (m : Nat) : TH1F :=
  forLoop m (fun i acc => acc.addEntries ((i : Int) + 1) (c i)) h

/-- The state of the seeded generator, `TRandom3 rand; rand.SetSeed(0);`, in a run
whose `SetSeed(0)` call generates the `TUUID` `uuid`. -/
def seeded {σ : Type} (rng : TRandom3 σ) (uuid : Nat) : σ :=
  rng.SetSeed rng.ctor 0 uuid

/-- The empty toy histogram `TH1F(Form("toy%i_h", iToy), ..., 6000, 0.0, 0.3)` with
`Sumw2()` called. -/
def emptyToy (iToy : Nat) : TH1F :=
  (TH1F.create (toyName iToy) (toyName iToy) 6000 0 (3 / 10)).Sumw2

/-! ## Reading the call log -/

/-- The argument pairs of the `setBounds` calls of a log, in order. -/
def setBoundsCalls {ρ : Type} : List (Event ρ) → List (ℚ × ℚ)
  | [] => []
  | .setBounds a b :: rest => (a, b) :: setBoundsCalls rest
  | _ :: rest => setBoundsCalls rest

/-- The arguments of the `performSearch` calls of a log, in order. -/
def searchCalls {ρ : Type} : List (Event ρ) → List (TH1F × ℚ × Bool × Bool)
  | [] => []
  | .performSearch h m a b _ :: rest => (h, m, a, b) :: searchCalls rest
  | _ :: rest => searchCalls rest

/-- The values the `performSearch` calls of a log returned, in order. -/
def searchReturns {ρ : Type} : List (Event ρ) → List ρ
  | [] => []
  | .performSearch _ _ _ _ r :: rest => r :: searchReturns rest
  | _ :: rest => searchReturns rest

/-- The objects on which a log calls `Write()`, in order, whatever the current
directory. -/
def writeCalls {ρ : Type} : List (Event ρ) → List (TObject ρ)
  | [] => []
  | .Write _ obj :: rest => obj :: writeCalls rest
  | _ :: rest => writeCalls rest

/-- The objects a log writes into the directory `sink`, in order. -/
def writtenTo {ρ : Type} (sink : Directory) : List (Event ρ) → List (TObject ρ)
  | [] => []
  | .Write d obj :: rest =>
    if d = sink then obj :: writtenTo sink rest else writtenTo sink rest
  | _ :: rest => writtenTo sink rest

/-- The seeds of the `SetSeed` calls of a log, in order. -/
def seedCalls {ρ : Type} : List (Event ρ) → List Nat
  | [] => []
  | .SetSeed s :: rest => s :: seedCalls rest
  | _ :: rest => seedCalls rest

/-- The files a log opens, each with its open mode, in order. -/
def openCalls {ρ : Type} : List (Event ρ) → List (String × String)
  | [] => []
  | .TFileOpen f o :: rest => (f, o) :: openCalls rest
  | _ :: rest => openCalls rest

/-- The `Get` calls of a log (file, object name), in order. -/
def getCalls {ρ : Type} : List (Event ρ) → List (String × String)
  | [] => []
  | .Get f n :: rest => (f, n) :: getCalls rest
  | _ :: rest => getCalls rest

/-- The warnings a log prints: the output statements that insert one of the two
warning texts of `initialize`. -/
def warnings {ρ : Type} : List (Event ρ) → List String
  | [] => []
  | .cout items :: rest =>
    if items = [warnNoHistogram] ∨ items = [warnNoFile] then
      items.headD "" :: warnings rest
    else warnings rest
  | _ :: rest => warnings rest

/-- Whether an object handed to `Write()` is a fit result. -/
def TObject.isFitResult {ρ : Type} : TObject ρ → Bool
  | .fitResult _ => true
  | .hist _ => false

/-- The toy with index `k` as the draw stream determines it: the empty histogram
`toy<k>_h` with, in bin `i + 1`, as many entries as the count drawn by pair
`6000 * k + i` of the stream started at the seeded state (none when that count is
negative). -/
def toyOf {σ : Type} (rng : TRandom3 σ) (uuid : Nat) (k : Nat) : TH1F :=
  (emptyToy k).fillCounts
    (fun i => (nthCount rng (seeded rng uuid) (6000 * k + i)).toNat) 6000

/-- The results of calling `performSearch(hist, mass_hypo, false, false)` on each
histogram in turn, the engine state being handed from each call to the next. -/
def searchResults {ε ρ : Type} (bh : BumpHunter ε ρ) (mass_hypo_ : ℚ) :
    List TH1F → ε → List ρ
  | [], _ => []
  | h :: hs, e =>
    (bh.performSearch e h mass_hypo_ false false).1
      :: searchResults bh mass_hypo_ hs (bh.performSearch e h mass_hypo_ false false).2

/-- The engine state after those calls. -/
def engineAfter {ε ρ : Type} (bh : BumpHunter ε ρ) (mass_hypo_ : ℚ) : List TH1F → ε → ε
  | [], e => e
  | h :: hs, e => engineAfter bh mass_hypo_ hs (bh.performSearch e h mass_hypo_ false false).2

/-- The progress lines of the first loop of `process` for `n` toys. -/
def genLog {ρ : Type} (n : Nat) : List (Event ρ) :=
  (List.range n).map (fun k => .cout ["Generating Toy ", toString k, endl])

/-- The calls of the second loop of `process`, for the histograms and the results
collected for them: per toy the progress line, the search, then the `Write()`. -/
def fitLog {ρ : Type} (gDirectory : Directory) (mass_hypo_ : ℚ) :
    Nat → List TH1F → List ρ → List (Event ρ)
  | toyFitN, h :: hs, r :: rs =>
    .cout ["Fitting Toy ", toString toyFitN, endl]
      :: .performSearch h mass_hypo_ false false r
      :: .Write gDirectory (.hist h) :: fitLog gDirectory mass_hypo_ (toyFitN + 1) hs rs
  | _, _, _ => []

/-! ## The options of `configure`, in reading order -/

/-- The options `configure` reads, in source order. -/
inductive ConfigOption where
  | debug
  | massSpectrum
  | mass_hypo
  | win_factor
  | poly_order
  | seed
  | nToys
  | toy_sig_samples
  | toy_bkg_mult
  | res_scale
  | signal_shape_h_name
  | signal_shape_h_file

namespace ConfigOption

/-- The place of an option in the reading order of `configure`. -/
def position : ConfigOption → Nat
  | debug => 0
  | massSpectrum => 1
  | mass_hypo => 2
  | win_factor => 3
  | poly_order => 4
  | seed => 5
  | nToys => 6
  | toy_sig_samples => 7
  | toy_bkg_mult => 8
  | res_scale => 9
  | signal_shape_h_name => 10
  | signal_shape_h_file => 11

/-- The read `configure` performs for an option. -/
def read (parameters : ParameterSet) : ConfigOption → Except String Element
  | debug => (parameters.getInteger "debug").map .integer
  | massSpectrum => (parameters.getString "massSpectrum").map .string
  | mass_hypo => (parameters.getDouble "mass_hypo").map .double
  | win_factor => (parameters.getInteger "win_factor").map .integer
  | poly_order => (parameters.getInteger "poly_order").map .integer
  | seed => (parameters.getInteger "seed").map .integer
  | nToys => (parameters.getInteger "nToys").map .integer
  | toy_sig_samples => (parameters.getInteger "toy_sig_samples").map .integer
  | toy_bkg_mult => (parameters.getInteger "toy_bkg_mult").map .integer
  | res_scale => (parameters.getDouble "res_scale").map .double
  | signal_shape_h_name => (parameters.getStringOr "signal_shape_h_name" "").map .string
  | signal_shape_h_file => (parameters.getStringOr "signal_shape_h_file" "").map .string

/-- The value of the data member `configure` assigns from an option. -/
def member {ε : Type} (p : BhFitSandboxProcessor ε) : ConfigOption → Element
  | debug => .integer p.debug_
  | massSpectrum => .string p.massSpectrum_
  | mass_hypo => .double p.mass_hypo_
  | win_factor => .integer p.win_factor_
  | poly_order => .integer p.poly_order_
  | seed => .integer p.seed_
  | nToys => .integer p.nToys_
  | toy_sig_samples => .integer p.toy_sig_samples_
  | toy_bkg_mult => .integer p.bkg_mult_
  | res_scale => .double p.res_scale_
  | signal_shape_h_name => .string p.signal_shape_h_name_
  | signal_shape_h_file => .string p.signal_shape_h_file_

end ConfigOption

/-- The sample parameters without the `poly_order` option. -/
def incompleteParameters : ParameterSet :=
  { elements_ :=
      [("debug", .integer 0), ("massSpectrum", .string "testSpectrum_h"),
       ("mass_hypo", .double (3 / 20)), ("win_factor", .integer 5),
       ("seed", .integer 7), ("nToys", .integer 3),
       ("toy_sig_samples", .integer 0), ("toy_bkg_mult", .integer 1),
       ("res_scale", .double 1)] }

/-! ## Sample collaborators -/

/-- A small random source: a linear congruential state; `Uniform(x)` scales the
state into `[0, x)`, `Poisson(mean)` returns a count near the mean. -/
def lcg : TRandom3 Nat where
  ctor := 4357
  seedState := fun seed => seed
  uuidState := fun uuid => uuid
  Uniform := fun s x => (x * ((s % 1000 : Nat) : ℚ) / 1000, (1103515245 * s + 12345) % 2147483648)
  Poisson := fun s mean => (Rat.floor mean + ((s % 3 : Nat) : Int) - 1,
    (1103515245 * s + 12345) % 2147483648)

/-- A search engine that counts its calls and reports, per call, the number of calls
made before it. -/
def countingHunter : BumpHunter Nat Nat where
  create := fun _ _ _ _ _ => 0
  setBounds := fun e _ _ => e
  enableDebug := fun e => e
  performSearch := fun e _ _ _ _ => (e, e + 1)

/-- A processor state as the constructor may leave it. -/
def sampleProcessor : BhFitSandboxProcessor Nat where
  debug_ := 0
  massSpectrum_ := "testSpectrum_h"
  mass_hypo_ := 100
  win_factor_ := 11
  poly_order_ := 3
  seed_ := 10
  nToys_ := 50
  toy_sig_samples_ := 0
  bkg_mult_ := 1
  res_scale_ := 1
  signal_shape_h_name_ := ""
  signal_shape_h_file_ := ""
  asymptotic_limit_ := false
  bkg_model_ := 0
  outF_ := none
  mass_spec_h := none
  signal_shape_h_ := none
  bump_hunter_ := none
  gDirectory := .gROOT

/-- A processor state ready for `process`: three toys, the engine constructed, the
output file current. -/
def readyProcessor : BhFitSandboxProcessor Nat :=
  { sampleProcessor with
    nToys_ := 3, bump_hunter_ := some 0, gDirectory := .created "out.root" }

/-- A file system without any signal-shape file. -/
def noFiles : String → String → Option TH1F :=
  fun _ _ => none

/-- A complete parameter set: three toys, seed 7. -/
def sampleParameters : ParameterSet :=
  { elements_ :=
      [("debug", .integer 0), ("massSpectrum", .string "testSpectrum_h"),
       ("mass_hypo", .double (3 / 20)), ("win_factor", .integer 5),
       ("poly_order", .integer 2), ("seed", .integer 7), ("nToys", .integer 3),
       ("toy_sig_samples", .integer 0), ("toy_bkg_mult", .integer 1),
       ("res_scale", .double 1)] }

/-- The sample processor after `configure` with the sample parameters. -/
def configuredProcessor : BhFitSandboxProcessor Nat :=
  (@configure Nat Nat sampleProcessor sampleParameters).1

/-- The configured sample processor after `initialize`. -/
def initializedProcessor : BhFitSandboxProcessor Nat :=
  (initializeProcessor countingHunter noFiles configuredProcessor "in.root" "out.root").1

/-- A sample signal template. -/
def sampleTemplate : TH1F :=
  TH1F.create "sig_h" "sig_h" 6000 0 (3 / 10)

/-- A file system holding the sample template as `sig_h` in `sig.root`. -/
def templateFiles : String → String → Option TH1F :=
  fun f n => if f = "sig.root" ∧ n = "sig_h" then some sampleTemplate else none

/-- The sample state with a signal template requested and other signal and
background options. -/
def signalProcessor : BhFitSandboxProcessor Nat :=
  { sampleProcessor with
    signal_shape_h_file_ := "sig.root", signal_shape_h_name_ := "sig_h",
    toy_sig_samples_ := 1000, bkg_mult_ := 2, massSpectrum_ := "other_h" }

/-! ## Loops -/

theorem forLoop_zero {α : Type} (body : Nat → α → α) (init : α) :
    forLoop 0 body init = init := by
  simp [forLoop]

theorem forLoop_succ {α : Type} (n : Nat) (body : Nat → α → α) (init : α) :
    forLoop (n + 1) body init = body n (forLoop n body init) := by
  simp [forLoop, List.range_succ, List.foldl_append]

/-! ## Axis arithmetic -/

theorem truncInt_sub_half (b : Int) (hb : 1 ≤ b) : truncInt ((b : ℚ) - 1 / 2) = b - 1 := by
  have h0 : (0 : ℚ) ≤ (b : ℚ) - 1 / 2 := by
    have : (1 : ℚ) ≤ (b : ℚ) := by exact_mod_cast hb
    linarith
  unfold truncInt
  rw [if_pos h0]
  show Int.floor ((b : ℚ) - 1 / 2) = b - 1
  rw [Int.floor_eq_iff]
  constructor
  · push_cast; linarith
  · push_cast; linarith

theorem TAxis.FindBin_GetBinCenter (a : TAxis) (hn : 0 < a.fNbins) (hx : a.fXmin < a.fXmax)
    (b : Int) (h1 : 1 ≤ b) (h2 : b ≤ a.fNbins) :
    a.FindBin (a.GetBinCenter b) = b := by
  have hN : (0 : ℚ) < (a.fNbins : ℚ) := by exact_mod_cast hn
  have hd : (0 : ℚ) < a.fXmax - a.fXmin := by linarith
  have hb1 : (1 : ℚ) ≤ (b : ℚ) := by exact_mod_cast h1
  have hb2 : (b : ℚ) ≤ (a.fNbins : ℚ) := by exact_mod_cast h2
  have hw : 0 < a.binWidth := div_pos hd hN
  have hc : a.GetBinCenter b = a.fXmin + ((b : ℚ) - 1 / 2) * a.binWidth := by
    unfold TAxis.GetBinCenter; ring
  have hwN : a.binWidth * (a.fNbins : ℚ) = a.fXmax - a.fXmin := by
    unfold TAxis.binWidth; field_simp
  unfold TAxis.FindBin
  rw [hc]
  have hlo : ¬ (a.fXmin + ((b : ℚ) - 1 / 2) * a.binWidth < a.fXmin) := by
    have : 0 ≤ ((b : ℚ) - 1 / 2) * a.binWidth := mul_nonneg (by linarith) hw.le
    linarith
  have hhi : a.fXmin + ((b : ℚ) - 1 / 2) * a.binWidth < a.fXmax := by
    have : ((b : ℚ) - 1 / 2) * a.binWidth < (a.fNbins : ℚ) * a.binWidth :=
      mul_lt_mul_of_pos_right (by linarith) hw
    linarith [hwN]
  rw [if_neg hlo, if_neg (not_not.mpr hhi)]
  have harg : (a.fNbins : ℚ) * (a.fXmin + ((b : ℚ) - 1 / 2) * a.binWidth - a.fXmin)
      / (a.fXmax - a.fXmin) = (b : ℚ) - 1 / 2 := by
    unfold TAxis.binWidth; field_simp; ring
  rw [harg, truncInt_sub_half b h1]
  ring
/-! ## Arrays of counts -/

theorem array_ext_getElem? (a b : Array Nat) (h : ∀ i : Nat, a[i]? = b[i]?) : a = b := by
  apply Array.ext'
  apply List.ext_getElem?
  intro i
  have := h i
  simpa using this

theorem array_modify_id (a : Array Nat) (i : Nat) :
    a.modify i (fun x => x) = a := by
  apply array_ext_getElem?
  intro j
  rw [Array.getElem?_modify]
  split
  · cases a[j]? <;> rfl
  · rfl

theorem array_modify_modify_add (a : Array Nat) (i k l : Nat) :
    (a.modify i (fun x => x + k)).modify i (fun x => x + l)
      = a.modify i (fun x => x + (k + l)) := by
  apply array_ext_getElem?
  intro j
  simp only [Array.getElem?_modify]
  split
  · cases a[j]? <;> simp [Nat.add_assoc]
  · rfl

theorem array_modify_of_size_zero (a : Array Nat) (i : Nat) (f : Nat → Nat)
    (h : a.size = 0) : a.modify i f = a := by
  apply array_ext_getElem?
  intro j
  rw [Array.getElem?_modify]
  split
  · have : a[j]? = none := Array.getElem?_size_le a j (by omega)
    rw [this]; rfl
  · rfl

theorem array_getD_modify (a : Array Nat) (i j n : Nat) :
    (a.modify i (fun x => x + n)).getD j 0
      = a.getD j 0 + (if i = j ∧ j < a.size then n else 0) := by
  simp only [Array.getD_eq_get?, Array.getElem?_modify]
  by_cases hij : i = j
  · subst hij
    by_cases hs : i < a.size
    · simp [hs, Array.getElem?_eq_getElem]
    · have : a[i]? = none := Array.getElem?_size_le a i (by omega)
      simp [hs, this]
  · simp [hij]

theorem array_getD_mkArray_zero (n j : Nat) : (mkArray n 0 : Array Nat).getD j 0 = 0 := by
  simp only [Array.getD_eq_get?, Array.getElem?_mkArray]
  split <;> rfl

/-! ## Filling a histogram at bin centres -/

theorem TH1F.addEntries_zero (h : TH1F) (b : Int) : h.addEntries b 0 = h := by
  cases h with
  | mk n t a c w e =>
    simp only [TH1F.addEntries, Nat.add_zero, array_modify_id]

theorem TH1F.addEntries_fXaxis (h : TH1F) (b : Int) (n : Nat) :
    (h.addEntries b n).fXaxis = h.fXaxis := rfl

theorem TH1F.addEntries_fName (h : TH1F) (b : Int) (n : Nat) :
    (h.addEntries b n).fName = h.fName := rfl

theorem TH1F.Fill_GetBinCenter (h : TH1F) (hn : 0 < h.fXaxis.fNbins)
    (hx : h.fXaxis.fXmin < h.fXaxis.fXmax) (b : Int) (h1 : 1 ≤ b)
    (h2 : b ≤ h.fXaxis.fNbins) :
    h.Fill (h.GetBinCenter b) = h.addEntries b 1 := by
  unfold TH1F.Fill TH1F.GetBinCenter
  rw [TAxis.FindBin_GetBinCenter h.fXaxis hn hx b h1 h2]
  have hb : ¬ b < 0 := by omega
  simp only [hb, if_false]
  unfold TH1F.addEntries
  by_cases hs : h.fSumw2.size = 0
  · rw [if_pos hs, array_modify_of_size_zero h.fSumw2 b.toNat _ hs]
  · rw [if_neg hs]

theorem TH1F.addEntries_succ (h : TH1F) (b : Int) (n : Nat) :
    (h.addEntries b n).addEntries b 1 = h.addEntries b (n + 1) := by
  cases h with
  | mk nm t a c w e =>
    simp only [TH1F.addEntries, array_modify_modify_add, Nat.add_assoc]

theorem TH1F.fillCenter_eq (h : TH1F) (hn : 0 < h.fXaxis.fNbins)
    (hx : h.fXaxis.fXmin < h.fXaxis.fXmax) (b : Int) (h1 : 1 ≤ b)
    (h2 : b ≤ h.fXaxis.fNbins) (nFills : Int) :
    h.fillCenter b nFills = h.addEntries b nFills.toNat := by
  unfold TH1F.fillCenter
  induction nFills.toNat with
  | zero => rw [forLoop_zero, TH1F.addEntries_zero]
  | succ k ih =>
    rw [forLoop_succ, ih]
    rw [TH1F.Fill_GetBinCenter (h.addEntries b k) hn hx b h1 h2, TH1F.addEntries_succ]

theorem TH1F.fillCounts_zero (h : TH1F) (c : Nat → Nat) : h.fillCounts c 0 = h :=
  forLoop_zero _ _

theorem TH1F.fillCounts_succ (h : TH1F) (c : Nat → Nat) (m : Nat) :
    h.fillCounts c (m + 1) = (h.fillCounts c m).addEntries ((m : Int) + 1) (c m) :=
  forLoop_succ _ _ _

theorem TH1F.fillCounts_fXaxis (h : TH1F) (c : Nat → Nat) (m : Nat) :
    (h.fillCounts c m).fXaxis = h.fXaxis := by
  induction m with
  | zero => rw [TH1F.fillCounts_zero]
  | succ k ih => rw [TH1F.fillCounts_succ, TH1F.addEntries_fXaxis, ih]

theorem TH1F.fillCounts_fName (h : TH1F) (c : Nat → Nat) (m : Nat) :
    (h.fillCounts c m).fName = h.fName := by
  induction m with
  | zero => rw [TH1F.fillCounts_zero]
  | succ k ih => rw [TH1F.fillCounts_succ, TH1F.addEntries_fName, ih]

theorem TH1F.fillCounts_fArray_size (h : TH1F) (c : Nat → Nat) (m : Nat) :
    (h.fillCounts c m).fArray.size = h.fArray.size := by
  induction m with
  | zero => rw [TH1F.fillCounts_zero]
  | succ k ih =>
    rw [TH1F.fillCounts_succ]
    show ((h.fillCounts c k).fArray.modify _ _).size = _
    rw [Array.size_modify, ih]

theorem TH1F.fillCounts_fSumw2_size (h : TH1F) (c : Nat → Nat) (m : Nat) :
    (h.fillCounts c m).fSumw2.size = h.fSumw2.size := by
  induction m with
  | zero => rw [TH1F.fillCounts_zero]
  | succ k ih =>
    rw [TH1F.fillCounts_succ]
    show ((h.fillCounts c k).fSumw2.modify _ _).size = _
    rw [Array.size_modify, ih]

theorem count_step (x : Nat) (c : Nat → Nat) (k j size : Nat) :
    x + (if 1 ≤ j ∧ j ≤ k ∧ j < size then c (j - 1) else 0)
        + (if k + 1 = j ∧ j < size then c k else 0)
      = x + (if 1 ≤ j ∧ j ≤ k + 1 ∧ j < size then c (j - 1) else 0) := by
  by_cases hj : k + 1 = j
  · subst hj
    by_cases hs : k + 1 < size
    · have h1 : ¬ (1 ≤ k + 1 ∧ k + 1 ≤ k ∧ k + 1 < size) := by omega
      have h2 : 1 ≤ k + 1 ∧ k + 1 ≤ k + 1 ∧ k + 1 < size := by omega
      have h3 : k + 1 = k + 1 ∧ k + 1 < size := ⟨rfl, hs⟩
      rw [if_neg h1, if_pos h3, if_pos h2]
      rfl
    · have h1 : ¬ (1 ≤ k + 1 ∧ k + 1 ≤ k ∧ k + 1 < size) := by omega
      have h2 : ¬ (1 ≤ k + 1 ∧ k + 1 ≤ k + 1 ∧ k + 1 < size) := by omega
      have h3 : ¬ (k + 1 = k + 1 ∧ k + 1 < size) := by omega
      rw [if_neg h1, if_neg h3, if_neg h2]
  · have h3 : ¬ (k + 1 = j ∧ j < size) := fun h => hj h.1
    rw [if_neg h3, Nat.add_zero]
    by_cases hk : 1 ≤ j ∧ j ≤ k ∧ j < size
    · have h2 : 1 ≤ j ∧ j ≤ k + 1 ∧ j < size := by omega
      rw [if_pos hk, if_pos h2]
    · have h2 : ¬ (1 ≤ j ∧ j ≤ k + 1 ∧ j < size) := by omega
      rw [if_neg hk, if_neg h2]

theorem TH1F.fillCounts_fArray (h : TH1F) (c : Nat → Nat) (m : Nat) (j : Nat) :
    (h.fillCounts c m).fArray.getD j 0
      = h.fArray.getD j 0
        + (if 1 ≤ j ∧ j ≤ m ∧ j < h.fArray.size then c (j - 1) else 0) := by
  induction m with
  | zero =>
    rw [TH1F.fillCounts_zero]
    have : ¬ (1 ≤ j ∧ j ≤ 0 ∧ j < h.fArray.size) := by omega
    rw [if_neg this]; rfl
  | succ k ih =>
    rw [TH1F.fillCounts_succ]
    show ((h.fillCounts c k).fArray.modify ((k : Int) + 1).toNat (fun x => x + c k)).getD j 0
      = _
    have hk : ((k : Int) + 1).toNat = k + 1 := by omega
    rw [hk, array_getD_modify, ih, TH1F.fillCounts_fArray_size]
    exact count_step _ c k j _

theorem TH1F.fillCounts_fSumw2 (h : TH1F) (c : Nat → Nat) (m : Nat) (j : Nat) :
    (h.fillCounts c m).fSumw2.getD j 0
      = h.fSumw2.getD j 0
        + (if 1 ≤ j ∧ j ≤ m ∧ j < h.fSumw2.size then c (j - 1) else 0) := by
  induction m with
  | zero =>
    rw [TH1F.fillCounts_zero]
    have : ¬ (1 ≤ j ∧ j ≤ 0 ∧ j < h.fSumw2.size) := by omega
    rw [if_neg this]; rfl
  | succ k ih =>
    rw [TH1F.fillCounts_succ]
    show ((h.fillCounts c k).fSumw2.modify ((k : Int) + 1).toNat (fun x => x + c k)).getD j 0
      = _
    have hk : ((k : Int) + 1).toNat = k + 1 := by omega
    rw [hk, array_getD_modify, ih, TH1F.fillCounts_fSumw2_size]
    exact count_step _ c k j _

theorem TH1F.Sumw2_create (name title : String) (n : Nat) (xlow xup : ℚ) (hn : n ≠ 0) :
    (TH1F.create name title n xlow xup).Sumw2
      = { fName := name
          fTitle := title
          fXaxis := { fNbins := n, fXmin := xlow, fXmax := xup }
          fArray := mkArray (n + 2) 0
          fSumw2 := mkArray (n + 2) 0
          fEntries := 0 } := by
  unfold TH1F.Sumw2 TH1F.create
  simp only [hn, if_false]
  have hsz : ¬ ((#[] : Array Nat).size = (mkArray (n + 2) 0 : Array Nat).size) := by
    rw [Array.size_mkArray]
    simp
  rw [if_neg hsz]
  simp

/-- The bin content read through `GetBinContent`, for a cell inside the array. -/
theorem TH1F.GetBinContent_eq (h : TH1F) (j : Int) (h0 : 0 ≤ j) (h1 : j < h.fArray.size) :
    h.GetBinContent j = h.fArray.getD j.toNat 0 := by
  unfold TH1F.GetBinContent
  rw [if_neg (by omega), if_neg (by omega)]

theorem forLoop_fillCenter (h : TH1F) (hn : 0 < h.fXaxis.fNbins)
    (hx : h.fXaxis.fXmin < h.fXaxis.fXmax) (c : Nat → Int) (m : Nat)
    (hm : m ≤ h.fXaxis.fNbins) :
    forLoop m (fun iBin acc => acc.fillCenter ((iBin : Int) + 1) (c iBin)) h
      = h.fillCounts (fun i => (c i).toNat) m := by
  induction m with
  | zero => rw [forLoop_zero, TH1F.fillCounts_zero]
  | succ k ih =>
    rw [forLoop_succ, ih (by omega), TH1F.fillCounts_succ]
    have ha := TH1F.fillCounts_fXaxis h (fun i => (c i).toNat) k
    apply TH1F.fillCenter_eq
    · rw [ha]; exact hn
    · rw [ha]; exact hx
    · omega
    · rw [ha]; omega

theorem streamState_add {σ : Type} (rng : TRandom3 σ) (s : σ) (a b : Nat) :
    streamState rng (streamState rng s a) b = streamState rng s (a + b) := by
  induction b with
  | zero => rfl
  | succ k ih =>
    show (drawPair rng (streamState rng (streamState rng s a) k)).2 = _
    rw [ih]; rfl

theorem nthCount_add {σ : Type} (rng : TRandom3 σ) (s : σ) (a b : Nat) :
    nthCount rng (streamState rng s a) b = nthCount rng s (a + b) := by
  unfold nthCount nthMean
  rw [streamState_add]

theorem forLoop_fillToyBin {σ : Type} (rng : TRandom3 σ) (h : TH1F) (s : σ)
    (hn : 0 < h.fXaxis.fNbins) (hx : h.fXaxis.fXmin < h.fXaxis.fXmax) (m : Nat)
    (hm : m ≤ h.fXaxis.fNbins) :
    forLoop m (fillToyBin rng) (h, s)
      = (h.fillCounts (fun i => (nthCount rng s i).toNat) m, streamState rng s m) := by
  induction m with
  | zero => rw [forLoop_zero, TH1F.fillCounts_zero]; rfl
  | succ k ih =>
    rw [forLoop_succ, ih (by omega), TH1F.fillCounts_succ]
    have ha := TH1F.fillCounts_fXaxis h (fun i => (nthCount rng s i).toNat) k
    unfold fillToyBin
    simp only
    congr 1
    apply TH1F.fillCenter_eq
    · rw [ha]; exact hn
    · rw [ha]; exact hx
    · omega
    · rw [ha]; omega

/-! ## The background spectrum -/

theorem buildMassSpectrum_eq :
    buildMassSpectrum
      = (TH1F.create "mass_spec_h" "mass_spec_h" 6000 0 (3 / 10)).Sumw2.fillCounts
          (fun _ => 100) 6000 := by
  unfold buildMassSpectrum
  rw [TH1F.Sumw2_create _ _ _ _ _ (by norm_num)]
  have h := forLoop_fillCenter
    { fName := "mass_spec_h", fTitle := "mass_spec_h",
      fXaxis := { fNbins := 6000, fXmin := 0, fXmax := 3 / 10 },
      fArray := mkArray (6000 + 2) 0, fSumw2 := mkArray (6000 + 2) 0, fEntries := 0 }
    (by norm_num) (by norm_num) (fun _ => 100) 6000 (le_refl _)
  simpa using h

theorem buildMassSpectrum_fXaxis :
    buildMassSpectrum.fXaxis = { fNbins := 6000, fXmin := 0, fXmax := 3 / 10 } := by
  rw [buildMassSpectrum_eq, TH1F.fillCounts_fXaxis, TH1F.Sumw2_create _ _ _ _ _ (by norm_num)]

theorem buildMassSpectrum_fArray_size : buildMassSpectrum.fArray.size = 6002 := by
  rw [buildMassSpectrum_eq, TH1F.fillCounts_fArray_size,
    TH1F.Sumw2_create _ _ _ _ _ (by norm_num)]
  exact Array.size_mkArray _ _

theorem buildMassSpectrum_fSumw2_size : buildMassSpectrum.fSumw2.size = 6002 := by
  rw [buildMassSpectrum_eq, TH1F.fillCounts_fSumw2_size,
    TH1F.Sumw2_create _ _ _ _ _ (by norm_num)]
  exact Array.size_mkArray _ _

theorem buildMassSpectrum_fArray (j : Nat) :
    buildMassSpectrum.fArray.getD j 0 = if 1 ≤ j ∧ j ≤ 6000 then 100 else 0 := by
  rw [buildMassSpectrum_eq, TH1F.fillCounts_fArray, TH1F.Sumw2_create _ _ _ _ _ (by norm_num)]
  simp only [array_getD_mkArray_zero, Array.size_mkArray, Nat.zero_add]
  by_cases hj : 1 ≤ j ∧ j ≤ 6000
  · rw [if_pos hj, if_pos (by omega)]
  · rw [if_neg hj, if_neg (by omega)]

theorem buildMassSpectrum_fSumw2 (j : Nat) :
    buildMassSpectrum.fSumw2.getD j 0 = if 1 ≤ j ∧ j ≤ 6000 then 100 else 0 := by
  rw [buildMassSpectrum_eq, TH1F.fillCounts_fSumw2, TH1F.Sumw2_create _ _ _ _ _ (by norm_num)]
  simp only [array_getD_mkArray_zero, Array.size_mkArray, Nat.zero_add]
  by_cases hj : 1 ≤ j ∧ j ≤ 6000
  · rw [if_pos hj, if_pos (by omega)]
  · rw [if_neg hj, if_neg (by omega)]

theorem buildMassSpectrum_GetBinContent (j : Int) :
    buildMassSpectrum.GetBinContent j = if 1 ≤ j ∧ j ≤ 6000 then 100 else 0 := by
  unfold TH1F.GetBinContent
  rw [buildMassSpectrum_fArray_size]
  by_cases h0 : j < 0
  · rw [if_pos h0, buildMassSpectrum_fArray, if_neg (by omega), if_neg (by omega)]
  · rw [if_neg h0]
    by_cases h1 : ((6002 : Nat) : Int) ≤ j
    · rw [if_pos h1, buildMassSpectrum_fArray, if_neg (by omega), if_neg (by omega)]
    · rw [if_neg h1, buildMassSpectrum_fArray]
      by_cases hj : 1 ≤ j ∧ j ≤ 6000
      · rw [if_pos hj, if_pos (by omega)]
      · rw [if_neg hj, if_neg (by omega)]

theorem sum_map_range_const (f : Nat → Nat) (c : Nat) (n : Nat)
    (hf : ∀ i, i < n → f i = c) : ((List.range n).map f).sum = n * c := by
  induction n with
  | zero => simp
  | succ k ih =>
    rw [List.range_succ, List.map_append, List.sum_append, ih (fun i hi => hf i (by omega))]
    simp only [List.map_cons, List.map_nil, List.sum_cons, List.sum_nil, add_zero]
    rw [hf k (by omega)]
    ring

theorem buildMassSpectrum_Integral : buildMassSpectrum.Integral = 600000 := by
  have h := sum_map_range_const
    (fun i : Nat => buildMassSpectrum.GetBinContent ((i : Int) + 1)) 100 6000
    (fun i hi => by
      simp only []
      rw [buildMassSpectrum_GetBinContent, if_pos (by omega)])
  unfold TH1F.Integral
  rw [buildMassSpectrum_fXaxis]
  exact h

theorem TH1F.firstAboveFrom_hit (h : TH1F) (threshold : ℚ) (fuel : Nat) (bin : Int)
    (hc : threshold < (h.GetBinContent bin : ℚ)) :
    TH1F.firstAboveFrom h threshold (fuel + 1) bin = bin := by
  show (if threshold < (h.GetBinContent bin : ℚ) then bin
    else TH1F.firstAboveFrom h threshold fuel (bin + 1)) = bin
  rw [if_pos hc]

theorem TH1F.lastAboveFrom_hit (h : TH1F) (threshold : ℚ) (fuel : Nat) (bin : Int)
    (hc : threshold < (h.GetBinContent bin : ℚ)) :
    TH1F.lastAboveFrom h threshold (fuel + 1) bin = bin := by
  show (if threshold < (h.GetBinContent bin : ℚ) then bin
    else TH1F.lastAboveFrom h threshold fuel (bin - 1)) = bin
  rw [if_pos hc]

theorem TH1F.firstAboveFrom_spec (h : TH1F) (threshold : ℚ) (fuel : Nat) (start : Int) :
    (TH1F.firstAboveFrom h threshold fuel start = -1
        ∧ ∀ j : Int, start ≤ j → j < start + fuel → ¬ threshold < (h.GetBinContent j : ℚ))
      ∨ (start ≤ TH1F.firstAboveFrom h threshold fuel start
        ∧ TH1F.firstAboveFrom h threshold fuel start < start + fuel
        ∧ threshold < (h.GetBinContent (TH1F.firstAboveFrom h threshold fuel start) : ℚ)
        ∧ ∀ j : Int, start ≤ j → j < TH1F.firstAboveFrom h threshold fuel start →
            ¬ threshold < (h.GetBinContent j : ℚ)) := by
  induction fuel generalizing start with
  | zero =>
    left
    refine ⟨rfl, ?_⟩
    intro j h1 h2
    simp only [Nat.cast_zero, add_zero] at h2
    omega
  | succ k ih =>
    by_cases hc : threshold < (h.GetBinContent start : ℚ)
    · right
      rw [TH1F.firstAboveFrom_hit h threshold k start hc]
      refine ⟨le_refl _, ?_, hc, ?_⟩
      · push_cast; omega
      · intro j h1 h2; omega
    · have hstep : TH1F.firstAboveFrom h threshold (k + 1) start
          = TH1F.firstAboveFrom h threshold k (start + 1) := by
        show (if threshold < (h.GetBinContent start : ℚ) then start
          else TH1F.firstAboveFrom h threshold k (start + 1)) = _
        rw [if_neg hc]
      rw [hstep]
      rcases ih (start + 1) with ⟨hr, hall⟩ | ⟨h1, h2, h3, h4⟩
      · left
        refine ⟨hr, ?_⟩
        intro j hj1 hj2
        by_cases hj : j = start
        · rw [hj]; exact hc
        · exact hall j (by omega) (by push_cast at hj2; omega)
      · right
        refine ⟨by omega, by push_cast; omega, h3, ?_⟩
        intro j hj1 hj2
        by_cases hj : j = start
        · rw [hj]; exact hc
        · exact h4 j (by omega) hj2

theorem TH1F.lastAboveFrom_spec (h : TH1F) (threshold : ℚ) (fuel : Nat) (start : Int) :
    (TH1F.lastAboveFrom h threshold fuel start = -1
        ∧ ∀ j : Int, start - fuel < j → j ≤ start → ¬ threshold < (h.GetBinContent j : ℚ))
      ∨ (start - fuel < TH1F.lastAboveFrom h threshold fuel start
        ∧ TH1F.lastAboveFrom h threshold fuel start ≤ start
        ∧ threshold < (h.GetBinContent (TH1F.lastAboveFrom h threshold fuel start) : ℚ)
        ∧ ∀ j : Int, TH1F.lastAboveFrom h threshold fuel start < j → j ≤ start →
            ¬ threshold < (h.GetBinContent j : ℚ)) := by
  induction fuel generalizing start with
  | zero =>
    left
    refine ⟨rfl, ?_⟩
    intro j h1 h2
    simp only [Nat.cast_zero, sub_zero] at h1
    omega
  | succ k ih =>
    by_cases hc : threshold < (h.GetBinContent start : ℚ)
    · right
      rw [TH1F.lastAboveFrom_hit h threshold k start hc]
      refine ⟨?_, le_refl _, hc, ?_⟩
      · push_cast; omega
      · intro j h1 h2; omega
    · have hstep : TH1F.lastAboveFrom h threshold (k + 1) start
          = TH1F.lastAboveFrom h threshold k (start - 1) := by
        show (if threshold < (h.GetBinContent start : ℚ) then start
          else TH1F.lastAboveFrom h threshold k (start - 1)) = _
        rw [if_neg hc]
      rw [hstep]
      rcases ih (start - 1) with ⟨hr, hall⟩ | ⟨h1, h2, h3, h4⟩
      · left
        refine ⟨hr, ?_⟩
        intro j hj1 hj2
        by_cases hj : j = start
        · rw [hj]; exact hc
        · exact hall j (by push_cast at hj1; omega) (by omega)
      · right
        refine ⟨by push_cast; omega, by omega, h3, ?_⟩
        intro j hj1 hj2
        by_cases hj : j = start
        · rw [hj]; exact hc
        · exact h4 j hj1 (by omega)

theorem not_pos_cast_iff (c : Nat) : ¬ (0 : ℚ) < (c : ℚ) ↔ c = 0 := by
  rw [Nat.cast_pos]
  omega

theorem TH1F.FindFirstBinAbove_spec (h : TH1F) :
    (h.FindFirstBinAbove = -1
        ∧ ∀ j : Int, 1 ≤ j → j ≤ h.fXaxis.fNbins → h.GetBinContent j = 0)
      ∨ (1 ≤ h.FindFirstBinAbove ∧ h.FindFirstBinAbove ≤ h.fXaxis.fNbins
        ∧ 0 < h.GetBinContent h.FindFirstBinAbove
        ∧ ∀ j : Int, 1 ≤ j → j < h.FindFirstBinAbove → h.GetBinContent j = 0) := by
  unfold TH1F.FindFirstBinAbove
  rcases TH1F.firstAboveFrom_spec h 0 h.fXaxis.fNbins 1 with ⟨hr, hall⟩ | ⟨h1, h2, h3, h4⟩
  · left
    refine ⟨hr, ?_⟩
    intro j hj1 hj2
    exact (not_pos_cast_iff _).mp (hall j hj1 (by omega))
  · right
    refine ⟨h1, by omega, Nat.cast_pos.mp h3, ?_⟩
    intro j hj1 hj2
    exact (not_pos_cast_iff _).mp (h4 j hj1 hj2)

theorem TH1F.FindLastBinAbove_spec (h : TH1F) :
    (h.FindLastBinAbove = -1
        ∧ ∀ j : Int, 1 ≤ j → j ≤ h.fXaxis.fNbins → h.GetBinContent j = 0)
      ∨ (1 ≤ h.FindLastBinAbove ∧ h.FindLastBinAbove ≤ h.fXaxis.fNbins
        ∧ 0 < h.GetBinContent h.FindLastBinAbove
        ∧ ∀ j : Int, h.FindLastBinAbove < j → j ≤ h.fXaxis.fNbins →
            h.GetBinContent j = 0) := by
  unfold TH1F.FindLastBinAbove
  rcases TH1F.lastAboveFrom_spec h 0 h.fXaxis.fNbins h.fXaxis.fNbins with
    ⟨hr, hall⟩ | ⟨h1, h2, h3, h4⟩
  · left
    refine ⟨hr, ?_⟩
    intro j hj1 hj2
    exact (not_pos_cast_iff _).mp (hall j (by omega) hj2)
  · right
    refine ⟨by omega, h2, Nat.cast_pos.mp h3, ?_⟩
    intro j hj1 hj2
    exact (not_pos_cast_iff _).mp (h4 j hj1 hj2)

theorem buildMassSpectrum_GetBinContent_pos (bin : Int) (h1 : 1 ≤ bin) (h2 : bin ≤ 6000) :
    (0 : ℚ) < (buildMassSpectrum.GetBinContent bin : ℚ) := by
  rw [buildMassSpectrum_GetBinContent, if_pos ⟨h1, h2⟩]
  norm_num

theorem buildMassSpectrum_fNbins : buildMassSpectrum.fXaxis.fNbins = 5999 + 1 := by
  rw [buildMassSpectrum_fXaxis]

theorem buildMassSpectrum_FindFirstBinAbove : buildMassSpectrum.FindFirstBinAbove = 1 := by
  unfold TH1F.FindFirstBinAbove
  rw [buildMassSpectrum_fNbins]
  exact TH1F.firstAboveFrom_hit _ _ _ _ (buildMassSpectrum_GetBinContent_pos 1 (by omega) (by omega))

theorem buildMassSpectrum_FindLastBinAbove : buildMassSpectrum.FindLastBinAbove = 6000 := by
  unfold TH1F.FindLastBinAbove
  rw [buildMassSpectrum_fNbins]
  exact TH1F.lastAboveFrom_hit _ _ _ _
    (buildMassSpectrum_GetBinContent_pos _ (by norm_num) (by norm_num))

theorem setBoundsCalls_append {ρ : Type} (l1 l2 : List (Event ρ)) :
    setBoundsCalls (l1 ++ l2) = setBoundsCalls l1 ++ setBoundsCalls l2 := by
  induction l1 with
  | nil => rfl
  | cons e rest ih =>
    cases e <;> simp [setBoundsCalls, ih]

theorem setBoundsCalls_loadSignalShape {ρ : Type} (files : String → String → Option TH1F)
    (f n : String) (sig : Option TH1F) :
    setBoundsCalls (loadSignalShape files f n sig : Option TH1F × List (Event ρ)).2 = [] := by
  unfold loadSignalShape
  split_ifs <;> rfl

theorem initializeProcessor_log {ε ρ : Type} (bh : BumpHunter ε ρ)
    (files : String → String → Option TH1F) (p : BhFitSandboxProcessor ε)
    (inFilename outFilename : String) :
    (initializeProcessor bh files p inFilename outFilename).2
      = [.TFileOpen outFilename "RECREATE", .cd outFilename,
          .Write (.created outFilename) (.hist buildMassSpectrum),
          .cout ["Signal Shape File :: ", p.signal_shape_h_file_, endl],
          .cout ["Signal Shape Hist :: ", p.signal_shape_h_name_, endl]]
        ++ (loadSignalShape files p.signal_shape_h_file_ p.signal_shape_h_name_
              p.signal_shape_h_).2
        ++ [.newBumpHunter p.bkg_model_ p.poly_order_ p.win_factor_ p.res_scale_
              p.asymptotic_limit_,
            .setBounds
              (buildMassSpectrum.fXaxis.GetBinUpEdge buildMassSpectrum.FindFirstBinAbove)
              (buildMassSpectrum.fXaxis.GetBinLowEdge buildMassSpectrum.FindLastBinAbove)]
        ++ (if 0 < p.debug_ then [.enableDebug] else []) := rfl

theorem setBoundsCalls_debug {ρ : Type} (c : Prop) [Decidable c] :
    setBoundsCalls (if c then [(.enableDebug : Event ρ)] else []) = [] := by
  split_ifs <;> rfl

/-! ## Claims about the background spectrum and the fit bounds -/

/-- C2: whatever the configuration and the files, the background spectrum built by
`initialize` is the fixed histogram `buildMassSpectrum`: 6000 bins (plus the underflow
and overflow cells) of equal width `0.3 / 6000` over `[0, 0.3]`; a fill at the centre of bin `i` lands in bin `i`; every
bin `1..6000` holds exactly 100 and has variance accumulator 100, the underflow and
overflow cells stay empty, and the summed content is `6000 * 100 = 600000`. -/
theorem C2_background_spectrum {ε ρ : Type} (bh : BumpHunter ε ρ)
    (files : String → String → Option TH1F) (p : BhFitSandboxProcessor ε)
    (inFilename outFilename : String) :
    (initializeProcessor bh files p inFilename outFilename).1.mass_spec_h
        = some buildMassSpectrum
      ∧ buildMassSpectrum.fXaxis.fNbins = 6000
      ∧ buildMassSpectrum.fArray.size = 6000 + 2
      ∧ buildMassSpectrum.fXaxis.fXmin = 0
      ∧ buildMassSpectrum.fXaxis.fXmax = 3 / 10
      ∧ (∀ bin : Int, buildMassSpectrum.fXaxis.GetBinUpEdge bin
            - buildMassSpectrum.fXaxis.GetBinLowEdge bin = (3 / 10) / 6000)
      ∧ (∀ bin : Int, 1 ≤ bin → bin ≤ 6000 →
            buildMassSpectrum.fXaxis.FindBin (buildMassSpectrum.GetBinCenter bin) = bin
            ∧ buildMassSpectrum.GetBinContent bin = 100
            ∧ buildMassSpectrum.fSumw2.getD bin.toNat 0 = 100)
      ∧ buildMassSpectrum.GetBinContent 0 = 0
      ∧ buildMassSpectrum.GetBinContent 6001 = 0
      ∧ buildMassSpectrum.Integral = 6000 * 100 := by
  refine ⟨rfl, ?_, buildMassSpectrum_fArray_size, ?_, ?_, ?_, ?_, ?_, ?_, ?_⟩
  · rw [buildMassSpectrum_fXaxis]
  · rw [buildMassSpectrum_fXaxis]
  · rw [buildMassSpectrum_fXaxis]
  · intro bin
    rw [buildMassSpectrum_fXaxis]
    simp only [TAxis.GetBinUpEdge, TAxis.GetBinLowEdge, TAxis.binWidth]
    push_cast
    ring
  · intro bin h1 h2
    refine ⟨?_, ?_, ?_⟩
    · unfold TH1F.GetBinCenter
      apply TAxis.FindBin_GetBinCenter
      · rw [buildMassSpectrum_fXaxis]; norm_num
      · rw [buildMassSpectrum_fXaxis]; norm_num
      · exact h1
      · rw [buildMassSpectrum_fXaxis]; exact_mod_cast h2
    · rw [buildMassSpectrum_GetBinContent, if_pos ⟨h1, h2⟩]
    · rw [buildMassSpectrum_fSumw2, if_pos (by omega)]
  · rw [buildMassSpectrum_GetBinContent, if_neg (by omega)]
  · rw [buildMassSpectrum_GetBinContent, if_neg (by omega)]
  · rw [buildMassSpectrum_Integral]

/-- C9: `initialize` calls `setBounds` exactly once, with the upper edge of the bin
`FindFirstBinAbove()` returns and the lower edge of the bin `FindLastBinAbove()`
returns, and the engine it stores is the constructed one after that call (and after
`enableDebug` when `debug_ > 0`).  On every histogram `FindFirstBinAbove()` returns
the first bin of `1 .. fNbins` whose content is strictly above zero (no bin before it
has content above zero) and `FindLastBinAbove()` the last such bin (none after it),
each `-1` when no bin has.  In the spectrum built here every bin `1 .. 6000` has
content above zero, these bins are bin 1 and bin 6000, and the call is `setBounds(1/20000,
5999/20000)`, that is `(0.3/6000, 0.3 - 0.3/6000)`: the first bound is strictly below
the second and both lie inside `[0, 0.3]`. -/
theorem C9_fit_bounds {ε ρ : Type} (bh : BumpHunter ε ρ)
    (files : String → String → Option TH1F) (p : BhFitSandboxProcessor ε)
    (inFilename outFilename : String) :
    setBoundsCalls (initializeProcessor bh files p inFilename outFilename).2
        = [(buildMassSpectrum.fXaxis.GetBinUpEdge buildMassSpectrum.FindFirstBinAbove,
            buildMassSpectrum.fXaxis.GetBinLowEdge buildMassSpectrum.FindLastBinAbove)]
      ∧ (initializeProcessor bh files p inFilename outFilename).1.bump_hunter_
        = some ((fun e => if 0 < p.debug_ then bh.enableDebug e else e)
            (bh.setBounds
              (bh.create p.bkg_model_ p.poly_order_ p.win_factor_ p.res_scale_
                p.asymptotic_limit_)
              (buildMassSpectrum.fXaxis.GetBinUpEdge buildMassSpectrum.FindFirstBinAbove)
              (buildMassSpectrum.fXaxis.GetBinLowEdge buildMassSpectrum.FindLastBinAbove)))
      ∧ buildMassSpectrum.FindFirstBinAbove = 1
      ∧ buildMassSpectrum.FindLastBinAbove = 6000
      ∧ 0 < buildMassSpectrum.GetBinContent buildMassSpectrum.FindFirstBinAbove
      ∧ 0 < buildMassSpectrum.GetBinContent buildMassSpectrum.FindLastBinAbove
      ∧ (∀ h : TH1F,
          (h.FindFirstBinAbove = -1
            ∧ ∀ j : Int, 1 ≤ j → j ≤ h.fXaxis.fNbins → h.GetBinContent j = 0)
          ∨ (1 ≤ h.FindFirstBinAbove ∧ h.FindFirstBinAbove ≤ h.fXaxis.fNbins
            ∧ 0 < h.GetBinContent h.FindFirstBinAbove
            ∧ ∀ j : Int, 1 ≤ j → j < h.FindFirstBinAbove → h.GetBinContent j = 0))
      ∧ (∀ h : TH1F,
          (h.FindLastBinAbove = -1
            ∧ ∀ j : Int, 1 ≤ j → j ≤ h.fXaxis.fNbins → h.GetBinContent j = 0)
          ∨ (1 ≤ h.FindLastBinAbove ∧ h.FindLastBinAbove ≤ h.fXaxis.fNbins
            ∧ 0 < h.GetBinContent h.FindLastBinAbove
            ∧ ∀ j : Int, h.FindLastBinAbove < j → j ≤ h.fXaxis.fNbins →
                h.GetBinContent j = 0))
      ∧ (∀ j : Int, 1 ≤ j → j ≤ 6000 → 0 < buildMassSpectrum.GetBinContent j)
      ∧ buildMassSpectrum.fXaxis.GetBinUpEdge buildMassSpectrum.FindFirstBinAbove
          = (3 / 10) / 6000
      ∧ buildMassSpectrum.fXaxis.GetBinLowEdge buildMassSpectrum.FindLastBinAbove
          = 3 / 10 - (3 / 10) / 6000
      ∧ ((3 / 10) / 6000 : ℚ) = 1 / 20000
      ∧ (3 / 10 - (3 / 10) / 6000 : ℚ) = 5999 / 20000
      ∧ ((3 / 10) / 6000 : ℚ) < 3 / 10 - (3 / 10) / 6000
      ∧ (0 : ℚ) ≤ (3 / 10) / 6000
      ∧ (3 / 10 - (3 / 10) / 6000 : ℚ) ≤ 3 / 10 := by
  refine ⟨?_, ?_, buildMassSpectrum_FindFirstBinAbove, buildMassSpectrum_FindLastBinAbove,
    ?_, ?_, TH1F.FindFirstBinAbove_spec, TH1F.FindLastBinAbove_spec, ?_, ?_, ?_,
    by norm_num, by norm_num, by norm_num, by norm_num, by norm_num⟩
  · rw [initializeProcessor_log, setBoundsCalls_append, setBoundsCalls_append,
      setBoundsCalls_append, setBoundsCalls_loadSignalShape, setBoundsCalls_debug]
    rfl
  · rfl
  · rw [buildMassSpectrum_FindFirstBinAbove, buildMassSpectrum_GetBinContent,
      if_pos (by omega)]
    norm_num
  · rw [buildMassSpectrum_FindLastBinAbove, buildMassSpectrum_GetBinContent,
      if_pos (by omega)]
    norm_num
  · intro j h1 h2
    rw [buildMassSpectrum_GetBinContent, if_pos ⟨h1, h2⟩]
    norm_num
  · rw [buildMassSpectrum_FindFirstBinAbove, buildMassSpectrum_fXaxis]
    simp only [TAxis.GetBinUpEdge, TAxis.binWidth]
    norm_num
  · rw [buildMassSpectrum_FindLastBinAbove, buildMassSpectrum_fXaxis]
    simp only [TAxis.GetBinLowEdge, TAxis.binWidth]
    norm_num

/-! ## The two loops of `process` -/

theorem emptyToy_eq (k : Nat) :
    emptyToy k
      = { fName := toyName k
          fTitle := toyName k
          fXaxis := { fNbins := 6000, fXmin := 0, fXmax := 3 / 10 }
          fArray := mkArray (6000 + 2) 0
          fSumw2 := mkArray (6000 + 2) 0
          fEntries := 0 } := by
  unfold emptyToy
  rw [TH1F.Sumw2_create _ _ _ _ _ (by norm_num)]

theorem emptyToy_fXaxis (k : Nat) :
    (emptyToy k).fXaxis = { fNbins := 6000, fXmin := 0, fXmax := 3 / 10 } := by
  rw [emptyToy_eq]

theorem emptyToy_fArray (k : Nat) (j : Nat) : (emptyToy k).fArray.getD j 0 = 0 := by
  rw [emptyToy_eq]
  exact array_getD_mkArray_zero _ _

theorem emptyToy_fArray_size (k : Nat) : (emptyToy k).fArray.size = 6002 := by
  rw [emptyToy_eq]
  exact Array.size_mkArray _ _

theorem emptyToy_fName (k : Nat) : (emptyToy k).fName = toyName k := by
  rw [emptyToy_eq]

theorem generateToy_eq {σ ρ : Type} (rng : TRandom3 σ) (k : Nat) (st : GenState σ ρ) :
    generateToy rng k st
      = { toy_hists := st.toy_hists
            ++ [(forLoop 6000 (fillToyBin rng) (emptyToy k, st.rand)).1]
          rand := (forLoop 6000 (fillToyBin rng) (emptyToy k, st.rand)).2
          log := st.log ++ [.cout ["Generating Toy ", toString k, endl]] } := rfl

theorem toy_loop_eq {σ : Type} (rng : TRandom3 σ) (uuid : Nat) (k : Nat) :
    forLoop 6000 (fillToyBin rng) (emptyToy k, streamState rng (seeded rng uuid) (6000 * k))
      = (toyOf rng uuid k, streamState rng (seeded rng uuid) (6000 * (k + 1))) := by
  rw [forLoop_fillToyBin rng (emptyToy k) _ (by rw [emptyToy_fXaxis]; norm_num)
    (by rw [emptyToy_fXaxis]; norm_num) 6000 (by rw [emptyToy_fXaxis])]
  rw [streamState_add]
  have hc : (fun i => (nthCount rng (streamState rng (seeded rng uuid) (6000 * k)) i).toNat)
      = (fun i => (nthCount rng (seeded rng uuid) (6000 * k + i)).toNat) := by
    funext i
    rw [nthCount_add]
  rw [hc]
  rfl

theorem generateToys_eq {σ ρ : Type} (rng : TRandom3 σ) (uuid : Nat) (nToys_ : Int) :
    (generateToys rng uuid nToys_ : GenState σ ρ)
      = { toy_hists := (List.range nToys_.toNat).map (toyOf rng uuid)
          rand := streamState rng (seeded rng uuid) (6000 * nToys_.toNat)
          log := .SetSeed 0 :: genLog nToys_.toNat } := by
  unfold generateToys
  induction nToys_.toNat with
  | zero => rw [forLoop_zero]; rfl
  | succ k ih =>
    rw [forLoop_succ, ih, generateToy_eq]
    simp only [toy_loop_eq, List.range_succ, List.map_append, List.map_cons, List.map_nil,
      genLog, List.cons_append]

theorem searchResults_length {ε ρ : Type} (bh : BumpHunter ε ρ) (m : ℚ) (toys : List TH1F)
    (e : ε) : (searchResults bh m toys e).length = toys.length := by
  induction toys generalizing e with
  | nil => rfl
  | cons h hs ih => simp [searchResults, ih]

theorem fitToys_eq {ε ρ : Type} (bh : BumpHunter ε ρ) (d : Directory) (m : ℚ) (toys : List TH1F)
    (toyFitN : Nat) (e : ε) :
    fitToys bh d m toys toyFitN (some e)
      = some { toy_results := searchResults bh m toys e
               bump_hunter_ := some (engineAfter bh m toys e)
               log := fitLog d m toyFitN toys (searchResults bh m toys e) } := by
  induction toys generalizing toyFitN e with
  | nil => rfl
  | cons h hs ih =>
    unfold fitToys
    simp only
    rw [ih]
    rfl

theorem process_eq {σ ε ρ : Type} (rng : TRandom3 σ) (bh : BumpHunter ε ρ)
    (uuid : Nat)
    (p : BhFitSandboxProcessor ε) (e : ε) (he : p.bump_hunter_ = some e) :
    process rng bh uuid p
      = some { ret := true
               toy_hists := (List.range p.nToys_.toNat).map (toyOf rng uuid)
               toy_results := searchResults bh p.mass_hypo_
                 ((List.range p.nToys_.toNat).map (toyOf rng uuid)) e
               rand := streamState rng (seeded rng uuid) (6000 * p.nToys_.toNat)
               bump_hunter_ := some (engineAfter bh p.mass_hypo_
                 ((List.range p.nToys_.toNat).map (toyOf rng uuid)) e)
               log := (.SetSeed 0 :: genLog p.nToys_.toNat)
                 ++ fitLog p.gDirectory p.mass_hypo_ 0 ((List.range p.nToys_.toNat).map (toyOf rng uuid))
                      (searchResults bh p.mass_hypo_
                        ((List.range p.nToys_.toNat).map (toyOf rng uuid)) e) } := by
  unfold process
  simp only [generateToys_eq, he, fitToys_eq, Option.map_some']

/-! ## Reading the log of `process` -/

theorem searchCalls_append {ρ : Type} (l1 l2 : List (Event ρ)) :
    searchCalls (l1 ++ l2) = searchCalls l1 ++ searchCalls l2 := by
  induction l1 with
  | nil => rfl
  | cons e rest ih => cases e <;> simp [searchCalls, ih]

theorem searchReturns_append {ρ : Type} (l1 l2 : List (Event ρ)) :
    searchReturns (l1 ++ l2) = searchReturns l1 ++ searchReturns l2 := by
  induction l1 with
  | nil => rfl
  | cons e rest ih => cases e <;> simp [searchReturns, ih]

theorem writeCalls_append {ρ : Type} (l1 l2 : List (Event ρ)) :
    writeCalls (l1 ++ l2) = writeCalls l1 ++ writeCalls l2 := by
  induction l1 with
  | nil => rfl
  | cons e rest ih => cases e <;> simp [writeCalls, ih]

theorem seedCalls_append {ρ : Type} (l1 l2 : List (Event ρ)) :
    seedCalls (l1 ++ l2) = seedCalls l1 ++ seedCalls l2 := by
  induction l1 with
  | nil => rfl
  | cons e rest ih => cases e <;> simp [seedCalls, ih]

theorem genLog_succ {ρ : Type} (n : Nat) :
    (genLog (n + 1) : List (Event ρ))
      = genLog n ++ [.cout ["Generating Toy ", toString n, endl]] := by
  simp [genLog, List.range_succ]

theorem searchCalls_genLog {ρ : Type} (n : Nat) :
    searchCalls (genLog n : List (Event ρ)) = [] := by
  induction n with
  | zero => rfl
  | succ k ih => rw [genLog_succ, searchCalls_append, ih]; rfl

theorem searchReturns_genLog {ρ : Type} (n : Nat) :
    searchReturns (genLog n : List (Event ρ)) = [] := by
  induction n with
  | zero => rfl
  | succ k ih => rw [genLog_succ, searchReturns_append, ih]; rfl

theorem writeCalls_genLog {ρ : Type} (n : Nat) :
    writeCalls (genLog n : List (Event ρ)) = [] := by
  induction n with
  | zero => rfl
  | succ k ih => rw [genLog_succ, writeCalls_append, ih]; rfl

theorem seedCalls_genLog {ρ : Type} (n : Nat) :
    seedCalls (genLog n : List (Event ρ)) = [] := by
  induction n with
  | zero => rfl
  | succ k ih => rw [genLog_succ, seedCalls_append, ih]; rfl

theorem searchCalls_fitLog {ρ : Type} (d : Directory) (m : ℚ) (toys : List TH1F) (rs : List ρ) (n : Nat)
    (hl : rs.length = toys.length) :
    searchCalls (fitLog d m n toys rs) = toys.map (fun h => (h, m, false, false)) := by
  induction toys generalizing rs n with
  | nil => cases rs <;> rfl
  | cons h hs ih =>
    cases rs with
    | nil => simp at hl
    | cons r rs =>
      simp only [fitLog, searchCalls, List.map_cons]
      rw [ih rs (n + 1) (by simpa using hl)]

theorem searchReturns_fitLog {ρ : Type} (d : Directory) (m : ℚ) (toys : List TH1F) (rs : List ρ) (n : Nat)
    (hl : rs.length = toys.length) :
    searchReturns (fitLog d m n toys rs) = rs := by
  induction toys generalizing rs n with
  | nil =>
    cases rs with
    | nil => rfl
    | cons r rs => simp at hl
  | cons h hs ih =>
    cases rs with
    | nil => simp at hl
    | cons r rs =>
      simp only [fitLog, searchReturns]
      rw [ih rs (n + 1) (by simpa using hl)]

theorem writeCalls_fitLog {ρ : Type} (d : Directory) (m : ℚ) (toys : List TH1F) (rs : List ρ) (n : Nat)
    (hl : rs.length = toys.length) :
    writeCalls (fitLog d m n toys rs) = toys.map TObject.hist := by
  induction toys generalizing rs n with
  | nil => cases rs <;> rfl
  | cons h hs ih =>
    cases rs with
    | nil => simp at hl
    | cons r rs =>
      simp only [fitLog, writeCalls, List.map_cons]
      rw [ih rs (n + 1) (by simpa using hl)]

theorem seedCalls_fitLog {ρ : Type} (d : Directory) (m : ℚ) (toys : List TH1F) (rs : List ρ) (n : Nat) :
    seedCalls (fitLog d m n toys rs) = [] := by
  induction toys generalizing rs n with
  | nil => cases rs <;> rfl
  | cons h hs ih =>
    cases rs with
    | nil => rfl
    | cons r rs =>
      simp only [fitLog, seedCalls]
      exact ih rs (n + 1)

theorem searchCalls_processLog {ρ : Type} (d : Directory) (m : ℚ) (toys : List TH1F) (rs : List ρ)
    (n : Nat) (hl : rs.length = toys.length) :
    searchCalls ((.SetSeed 0 :: genLog n) ++ fitLog d m 0 toys rs)
      = toys.map (fun h => (h, m, false, false)) := by
  have h0 : searchCalls (.SetSeed 0 :: genLog n : List (Event ρ)) = searchCalls (genLog n) :=
    rfl
  rw [searchCalls_append, h0, searchCalls_genLog, List.nil_append,
    searchCalls_fitLog d m toys rs 0 hl]

theorem searchReturns_processLog {ρ : Type} (d : Directory) (m : ℚ) (toys : List TH1F) (rs : List ρ)
    (n : Nat) (hl : rs.length = toys.length) :
    searchReturns ((.SetSeed 0 :: genLog n) ++ fitLog d m 0 toys rs) = rs := by
  have h0 : searchReturns (.SetSeed 0 :: genLog n : List (Event ρ))
      = searchReturns (genLog n) := rfl
  rw [searchReturns_append, h0, searchReturns_genLog, List.nil_append,
    searchReturns_fitLog d m toys rs 0 hl]

theorem writeCalls_processLog {ρ : Type} (d : Directory) (m : ℚ) (toys : List TH1F) (rs : List ρ)
    (n : Nat) (hl : rs.length = toys.length) :
    writeCalls ((.SetSeed 0 :: genLog n) ++ fitLog d m 0 toys rs) = toys.map TObject.hist := by
  have h0 : writeCalls (.SetSeed 0 :: genLog n : List (Event ρ)) = writeCalls (genLog n) :=
    rfl
  rw [writeCalls_append, h0, writeCalls_genLog, List.nil_append,
    writeCalls_fitLog d m toys rs 0 hl]

theorem seedCalls_processLog {ρ : Type} (d : Directory) (m : ℚ) (toys : List TH1F) (rs : List ρ)
    (n : Nat) :
    seedCalls ((.SetSeed 0 :: genLog n) ++ fitLog d m 0 toys rs) = [0] := by
  have h0 : seedCalls (.SetSeed 0 :: genLog n : List (Event ρ)) = 0 :: seedCalls (genLog n) :=
    rfl
  rw [seedCalls_append, h0, seedCalls_genLog, seedCalls_fitLog]
  rfl

/-! ## The toys as the stream determines them -/

theorem toyOf_fName {σ : Type} (rng : TRandom3 σ) (uuid : Nat) (k : Nat) :
    (toyOf rng uuid k).fName = toyName k := by
  unfold toyOf
  rw [TH1F.fillCounts_fName, emptyToy_fName]

theorem toyOf_GetBinContent {σ : Type} (rng : TRandom3 σ) (uuid : Nat) (k : Nat) (j : Int) :
    (toyOf rng uuid k).GetBinContent j
      = if 1 ≤ j ∧ j ≤ 6000 then
          (nthCount rng (seeded rng uuid) (6000 * k + (j - 1).toNat)).toNat
        else 0 := by
  have hsize : (toyOf rng uuid k).fArray.size = 6002 := by
    unfold toyOf
    rw [TH1F.fillCounts_fArray_size, emptyToy_fArray_size]
  have hget : ∀ i : Nat, (toyOf rng uuid k).fArray.getD i 0
      = if 1 ≤ i ∧ i ≤ 6000 then (nthCount rng (seeded rng uuid) (6000 * k + (i - 1))).toNat
        else 0 := by
    intro i
    unfold toyOf
    rw [TH1F.fillCounts_fArray, emptyToy_fArray, emptyToy_fArray_size, Nat.zero_add]
    by_cases hi : 1 ≤ i ∧ i ≤ 6000
    · rw [if_pos hi, if_pos (by omega)]
    · rw [if_neg hi, if_neg (by omega)]
  unfold TH1F.GetBinContent
  rw [hsize]
  by_cases h0 : j < 0
  · rw [if_pos h0, hget, if_neg (by omega), if_neg (by omega)]
  · rw [if_neg h0]
    by_cases h1 : ((6002 : Nat) : Int) ≤ j
    · rw [if_pos h1, hget, if_neg (by omega), if_neg (by omega)]
    · rw [if_neg h1, hget]
      by_cases hj : 1 ≤ j ∧ j ≤ 6000
      · have e : j.toNat - 1 = (j - 1).toNat := by omega
        rw [if_pos hj, if_pos (by omega), e]
      · rw [if_neg hj, if_neg (by omega)]

theorem getElem?_map_range {α : Type} (f : Nat → α) (n k : Nat) (hk : k < n) :
    ((List.range n).map f)[k]? = some (f k) := by
  simp [hk]

/-! ## Claims about `process` -/

/-- C1: with the engine constructed, `process` returns `true` after invoking
`performSearch` exactly `max(nToys_, 0)` times, once per generated toy: the `k`-th
call receives the toy with index `k` (named `toy<k>_h`), `mass_hypo_` and both flags
`false`, and the `k`-th collected result is the value that call returned (the engine
state being handed from call to call).  For `nToys_ = 0` no toy is generated and the
engine is never invoked. -/
theorem C1_search_per_toy {σ ε ρ : Type} (rng : TRandom3 σ) (bh : BumpHunter ε ρ)
    (uuid : Nat)
    (p : BhFitSandboxProcessor ε) (e : ε) (he : p.bump_hunter_ = some e) :
    ∃ r, process rng bh uuid p = some r
      ∧ r.ret = true
      ∧ ((r.toy_hists.length : Nat) : Int) = max p.nToys_ 0
      ∧ (searchCalls r.log).length = r.toy_hists.length
      ∧ searchCalls r.log = r.toy_hists.map (fun h => (h, p.mass_hypo_, false, false))
      ∧ (∀ k, k < r.toy_hists.length →
          ∃ h, r.toy_hists[k]? = some h ∧ h.fName = "toy" ++ toString k ++ "_h"
            ∧ (searchCalls r.log)[k]? = some (h, p.mass_hypo_, false, false))
      ∧ r.toy_results = searchReturns r.log
      ∧ r.toy_results = searchResults bh p.mass_hypo_ r.toy_hists e
      ∧ (p.nToys_ = 0 → r.toy_hists = [] ∧ searchCalls r.log = [] ∧ r.toy_results = []) := by
  refine ⟨_, process_eq rng bh uuid p e he, rfl, ?_, ?_, ?_, ?_, ?_, rfl, ?_⟩
  · simp only [List.length_map, List.length_range]
    exact Int.toNat_eq_max p.nToys_
  · rw [searchCalls_processLog _ _ _ _ _ (searchResults_length _ _ _ _)]
    simp only [List.length_map]
  · rw [searchCalls_processLog _ _ _ _ _ (searchResults_length _ _ _ _)]
  · intro k hk
    simp only [List.length_map, List.length_range] at hk
    refine ⟨toyOf rng uuid k, getElem?_map_range _ _ _ hk, toyOf_fName rng uuid k, ?_⟩
    rw [searchCalls_processLog _ _ _ _ _ (searchResults_length _ _ _ _), List.map_map]
    exact getElem?_map_range _ _ _ hk
  · rw [searchReturns_processLog _ _ _ _ _ (searchResults_length _ _ _ _)]
  · intro h0
    simp only [h0, Int.toNat_zero, List.range_zero, List.map_nil, searchResults, genLog,
      fitLog, List.append_nil, searchCalls, and_self]

/-- Witness for C1: the three-toy sample run. -/
theorem C1_search_per_toy_witness :
    readyProcessor.bump_hunter_ = some 0
      ∧ ∃ r, process lcg countingHunter 1 readyProcessor = some r
        ∧ r.ret = true
        ∧ ((r.toy_hists.length : Nat) : Int) = max readyProcessor.nToys_ 0
        ∧ (searchCalls r.log).length = r.toy_hists.length
        ∧ searchCalls r.log
            = r.toy_hists.map (fun h => (h, readyProcessor.mass_hypo_, false, false))
        ∧ (∀ k, k < r.toy_hists.length →
            ∃ h, r.toy_hists[k]? = some h ∧ h.fName = "toy" ++ toString k ++ "_h"
              ∧ (searchCalls r.log)[k]? = some (h, readyProcessor.mass_hypo_, false, false))
        ∧ r.toy_results = searchReturns r.log
        ∧ r.toy_results
            = searchResults countingHunter readyProcessor.mass_hypo_ r.toy_hists 0
        ∧ (readyProcessor.nToys_ = 0 →
            r.toy_hists = [] ∧ searchCalls r.log = [] ∧ r.toy_results = []) :=
  ⟨rfl, C1_search_per_toy lcg countingHunter 1 readyProcessor 0 rfl⟩

/-- C3: with the engine constructed, `process` returns, and for every toy `k` and
every bin `i + 1` (`i < 6000`) the content of that bin is `max(n, 0)` where `mu` is
the `Uniform(100000)` draw and `n` the `Poisson(mu)` draw taken right after it, both
from the stream state reached after `6000 * k + i` such pairs (toy-major, bin-minor
order); underflow and overflow stay empty, the generator ends after exactly
`6000 * nToys` pairs, and the toys do not depend on the background spectrum. -/
theorem C3_toy_bin_contents {σ ε ρ : Type} (rng : TRandom3 σ) (bh : BumpHunter ε ρ)
    (uuid : Nat)
    (p : BhFitSandboxProcessor ε) (e : ε) (he : p.bump_hunter_ = some e) :
    ∃ r, process rng bh uuid p = some r
      ∧ r.toy_hists.length = p.nToys_.toNat
      ∧ (∀ k, k < p.nToys_.toNat → ∃ h, r.toy_hists[k]? = some h
          ∧ (∀ i : Nat, i < 6000 →
              ((h.GetBinContent ((i : Int) + 1) : Nat) : Int)
                = max (rng.Poisson
                    (rng.Uniform (streamState rng (rng.SetSeed rng.ctor 0 uuid) (6000 * k + i))
                      100000).2
                    (rng.Uniform (streamState rng (rng.SetSeed rng.ctor 0 uuid) (6000 * k + i))
                      100000).1).1 0)
          ∧ h.GetBinContent 0 = 0
          ∧ h.GetBinContent 6001 = 0)
      ∧ r.rand = streamState rng (rng.SetSeed rng.ctor 0 uuid) (6000 * p.nToys_.toNat)
      ∧ (∀ spec : Option TH1F,
          (process rng bh uuid { p with mass_spec_h := spec }).map (fun r' => r'.toy_hists)
            = some r.toy_hists) := by
  refine ⟨_, process_eq rng bh uuid p e he, ?_, ?_, rfl, ?_⟩
  · simp only [List.length_map, List.length_range]
  · intro k hk
    refine ⟨toyOf rng uuid k, getElem?_map_range _ _ _ hk, ?_, ?_, ?_⟩
    · intro i hi
      rw [toyOf_GetBinContent, if_pos (by omega)]
      have h3 : ((i : Int) + 1 - 1).toNat = i := by omega
      rw [h3, Int.toNat_eq_max]
      rfl
    · rw [toyOf_GetBinContent, if_neg (by omega)]
    · rw [toyOf_GetBinContent, if_neg (by omega)]
  · intro spec
    rw [process_eq rng bh uuid { p with mass_spec_h := spec } e he]
    rfl

/-- Witness for C3: the three-toy sample run. -/
theorem C3_toy_bin_contents_witness :
    readyProcessor.bump_hunter_ = some 0
      ∧ ∃ r, process lcg countingHunter 1 readyProcessor = some r
        ∧ r.toy_hists.length = readyProcessor.nToys_.toNat
        ∧ (∀ k, k < readyProcessor.nToys_.toNat → ∃ h, r.toy_hists[k]? = some h
            ∧ (∀ i : Nat, i < 6000 →
                ((h.GetBinContent ((i : Int) + 1) : Nat) : Int)
                  = max (lcg.Poisson
                      (lcg.Uniform (streamState lcg (lcg.SetSeed lcg.ctor 0 1) (6000 * k + i))
                        100000).2
                      (lcg.Uniform (streamState lcg (lcg.SetSeed lcg.ctor 0 1) (6000 * k + i))
                        100000).1).1 0)
            ∧ h.GetBinContent 0 = 0
            ∧ h.GetBinContent 6001 = 0)
        ∧ r.rand
            = streamState lcg (lcg.SetSeed lcg.ctor 0 1) (6000 * readyProcessor.nToys_.toNat)
        ∧ (∀ spec : Option TH1F,
            (process lcg countingHunter 1 { readyProcessor with mass_spec_h := spec }).map
                (fun r' => r'.toy_hists)
              = some r.toy_hists) :=
  ⟨rfl, C3_toy_bin_contents lcg countingHunter 1 readyProcessor 0 rfl⟩

theorem initializeProcessor_bump_hunter {ε ρ : Type} (bh : BumpHunter ε ρ)
    (files : String → String → Option TH1F) (p : BhFitSandboxProcessor ε)
    (inFilename outFilename : String) :
    ∃ e, (initializeProcessor bh files p inFilename outFilename).1.bump_hunter_ = some e :=
  ⟨_, rfl⟩

theorem initializeProcessor_nToys {ε ρ : Type} (bh : BumpHunter ε ρ)
    (files : String → String → Option TH1F) (p : BhFitSandboxProcessor ε)
    (inFilename outFilename : String) :
    (initializeProcessor bh files p inFilename outFilename).1.nToys_ = p.nToys_ := rfl

theorem initializeProcessor_mass_hypo {ε ρ : Type} (bh : BumpHunter ε ρ)
    (files : String → String → Option TH1F) (p : BhFitSandboxProcessor ε)
    (inFilename outFilename : String) :
    (initializeProcessor bh files p inFilename outFilename).1.mass_hypo_ = p.mass_hypo_ := rfl

/-- C10: for one random source, two configurations with the same `nToys_` and
`mass_hypo_`, each initialised (with whatever files, so with or without a loaded
signal template) and then processed, yield the same toys, the same `performSearch`
arguments and the same final generator state, whatever their other options
(`toy_sig_samples_`, `bkg_mult_`, `massSpectrum_`, the signal-shape pair, ...) are. -/
theorem C10_signal_options_ignored {σ ε ρ : Type} (rng : TRandom3 σ) (bh : BumpHunter ε ρ)
    (uuid : Nat)
    (files files' : String → String → Option TH1F) (p q : BhFitSandboxProcessor ε)
    (inFilename outFilename inFilename' outFilename' : String)
    (hn : p.nToys_ = q.nToys_) (hm : p.mass_hypo_ = q.mass_hypo_) :
    ∃ r r',
      process rng bh uuid (initializeProcessor bh files p inFilename outFilename).1 = some r
      ∧ process rng bh uuid (initializeProcessor bh files' q inFilename' outFilename').1 = some r'
      ∧ r.toy_hists = r'.toy_hists
      ∧ searchCalls r.log = searchCalls r'.log
      ∧ r.rand = r'.rand := by
  obtain ⟨e, he⟩ := initializeProcessor_bump_hunter bh files p inFilename outFilename
  obtain ⟨e', he'⟩ := initializeProcessor_bump_hunter bh files' q inFilename' outFilename'
  refine ⟨_, _, process_eq rng bh uuid _ e he, process_eq rng bh uuid _ e' he', ?_, ?_, ?_⟩
  · simp only [initializeProcessor_nToys, hn]
  · rw [searchCalls_processLog _ _ _ _ _ (searchResults_length _ _ _ _),
      searchCalls_processLog _ _ _ _ _ (searchResults_length _ _ _ _)]
    simp only [initializeProcessor_nToys, initializeProcessor_mass_hypo, hn, hm]
  · simp only [initializeProcessor_nToys, hn]

/-- Witness for C10: the sample configuration without a signal template against one
with a loaded template and other signal and background options. -/
theorem C10_signal_options_ignored_witness :
    sampleProcessor.nToys_ = signalProcessor.nToys_
      ∧ sampleProcessor.mass_hypo_ = signalProcessor.mass_hypo_
      ∧ (initializeProcessor countingHunter templateFiles signalProcessor "" "b.root").1.signal_shape_h_
          = some sampleTemplate
      ∧ ∃ r r',
        process lcg countingHunter 1
            (initializeProcessor countingHunter noFiles sampleProcessor "" "a.root").1 = some r
        ∧ process lcg countingHunter 1
            (initializeProcessor countingHunter templateFiles signalProcessor "" "b.root").1
              = some r'
        ∧ r.toy_hists = r'.toy_hists
        ∧ searchCalls r.log = searchCalls r'.log
        ∧ r.rand = r'.rand :=
  ⟨rfl, rfl, rfl, C10_signal_options_ignored lcg countingHunter 1 noFiles templateFiles
    sampleProcessor signalProcessor "" "a.root" "" "b.root" rfl rfl⟩

/-! ## The seed and the written objects -/

theorem initializedProcessor_seed : initializedProcessor.seed_ = 7 := rfl

theorem initializedProcessor_nToys : initializedProcessor.nToys_ = 3 := rfl

theorem initializedProcessor_bump_hunter : initializedProcessor.bump_hunter_ = some 0 := rfl

/-- C5, as stated, fails: the sample run is configured with `seed = 7`, yet the one
`SetSeed` call of `process` passes `0`. -/
theorem C5_counterexample :
    sampleParameters.getInteger "seed" = .ok 7
      ∧ initializedProcessor.seed_ = 7
      ∧ (process lcg countingHunter 1 initializedProcessor).map (fun r => seedCalls r.log)
          = some [0]
      ∧ ([0] : List Nat) ≠ [7] := by
  refine ⟨rfl, initializedProcessor_seed, ?_, by decide⟩
  rw [process_eq lcg countingHunter 1 initializedProcessor 0 initializedProcessor_bump_hunter]
  simp only [Option.map_some', seedCalls_processLog]

/-- C5, amended: with the engine constructed, `process` makes exactly one `SetSeed`
call and passes the constant `0`, whatever `seed_` holds: replacing `seed_` by any
value leaves the whole outcome of `process` unchanged. -/
theorem C5_seed_constant {σ ε ρ : Type} (rng : TRandom3 σ) (bh : BumpHunter ε ρ)
    (uuid : Nat)
    (p : BhFitSandboxProcessor ε) (e : ε) (he : p.bump_hunter_ = some e) :
    ∃ r, process rng bh uuid p = some r
      ∧ seedCalls r.log = [0]
      ∧ r.rand = streamState rng (rng.SetSeed rng.ctor 0 uuid) (6000 * p.nToys_.toNat)
      ∧ (∀ s : Int, process rng bh uuid { p with seed_ := s } = some r) := by
  refine ⟨_, process_eq rng bh uuid p e he, seedCalls_processLog _ _ _ _ _, rfl, ?_⟩
  intro s
  exact process_eq rng bh uuid { p with seed_ := s } e he

/-- Witness for C5, amended: the three-toy sample run. -/
theorem C5_seed_constant_witness :
    readyProcessor.bump_hunter_ = some 0
      ∧ ∃ r, process lcg countingHunter 1 readyProcessor = some r
        ∧ seedCalls r.log = [0]
        ∧ r.rand
            = streamState lcg (lcg.SetSeed lcg.ctor 0 1) (6000 * readyProcessor.nToys_.toNat)
        ∧ (∀ s : Int, process lcg countingHunter 1 { readyProcessor with seed_ := s } = some r) :=
  ⟨rfl, C5_seed_constant lcg countingHunter 1 readyProcessor 0 rfl⟩

theorem writeCalls_loadSignalShape {ρ : Type} (files : String → String → Option TH1F)
    (f n : String) (sig : Option TH1F) :
    writeCalls (loadSignalShape files f n sig : Option TH1F × List (Event ρ)).2 = [] := by
  unfold loadSignalShape
  split_ifs <;> rfl

theorem writeCalls_debug {ρ : Type} (c : Prop) [Decidable c] :
    writeCalls (if c then [(.enableDebug : Event ρ)] else []) = [] := by
  split_ifs <;> rfl

theorem writeCalls_initializeProcessor {ε ρ : Type} (bh : BumpHunter ε ρ)
    (files : String → String → Option TH1F) (p : BhFitSandboxProcessor ε)
    (inFilename outFilename : String) :
    writeCalls (initializeProcessor bh files p inFilename outFilename).2
      = [.hist buildMassSpectrum] := by
  rw [initializeProcessor_log, writeCalls_append, writeCalls_append, writeCalls_append,
    writeCalls_loadSignalShape, writeCalls_debug]
  rfl

theorem writtenTo_append {ρ : Type} (sink : Directory) (l1 l2 : List (Event ρ)) :
    writtenTo sink (l1 ++ l2) = writtenTo sink l1 ++ writtenTo sink l2 := by
  induction l1 with
  | nil => rfl
  | cons e rest ih =>
    cases e with
    | Write d obj =>
      simp only [List.cons_append, writtenTo]
      split_ifs <;> simp [ih]
    | _ => simp [writtenTo, ih]

theorem writtenTo_genLog {ρ : Type} (sink : Directory) (n : Nat) :
    writtenTo sink (genLog n : List (Event ρ)) = [] := by
  induction n with
  | zero => rfl
  | succ k ih => rw [genLog_succ, writtenTo_append, ih]; rfl

theorem writtenTo_fitLog {ρ : Type} (sink : Directory) (m : ℚ) (toys : List TH1F)
    (rs : List ρ) (n : Nat) (hl : rs.length = toys.length) :
    writtenTo sink (fitLog sink m n toys rs) = toys.map TObject.hist := by
  induction toys generalizing rs n with
  | nil => cases rs <;> rfl
  | cons h hs ih =>
    cases rs with
    | nil => simp at hl
    | cons r rs =>
      simp only [fitLog, writtenTo, if_true, List.map_cons]
      rw [ih rs (n + 1) (by simpa using hl)]

theorem writtenTo_processLog {ρ : Type} (sink : Directory) (m : ℚ) (toys : List TH1F)
    (rs : List ρ) (n : Nat) (hl : rs.length = toys.length) :
    writtenTo sink ((.SetSeed 0 :: genLog n) ++ fitLog sink m 0 toys rs)
      = toys.map TObject.hist := by
  have h0 : writtenTo sink (.SetSeed 0 :: genLog n : List (Event ρ))
      = writtenTo sink (genLog n) := rfl
  rw [writtenTo_append, h0, writtenTo_genLog, List.nil_append,
    writtenTo_fitLog sink m toys rs 0 hl]

theorem writtenTo_loadSignalShape {ρ : Type} (sink : Directory)
    (files : String → String → Option TH1F) (f n : String) (sig : Option TH1F) :
    writtenTo sink (loadSignalShape files f n sig : Option TH1F × List (Event ρ)).2 = [] := by
  unfold loadSignalShape
  split_ifs <;> rfl

theorem writtenTo_debug {ρ : Type} (sink : Directory) (c : Prop) [Decidable c] :
    writtenTo sink (if c then [(.enableDebug : Event ρ)] else []) = [] := by
  split_ifs <;> rfl

theorem writtenTo_initializeProcessor {ε ρ : Type} (bh : BumpHunter ε ρ)
    (files : String → String → Option TH1F) (p : BhFitSandboxProcessor ε)
    (inFilename outFilename : String) :
    writtenTo (.created outFilename) (initializeProcessor bh files p inFilename outFilename).2
      = [.hist buildMassSpectrum] := by
  rw [initializeProcessor_log, writtenTo_append, writtenTo_append, writtenTo_append,
    writtenTo_loadSignalShape, writtenTo_debug]
  simp only [writtenTo, if_true, List.append_nil]

theorem initializeProcessor_gDirectory {ε ρ : Type} (bh : BumpHunter ε ρ)
    (files : String → String → Option TH1F) (p : BhFitSandboxProcessor ε)
    (inFilename outFilename : String)
    (hsig : p.signal_shape_h_file_ = "" ∨ p.signal_shape_h_name_ = "") :
    (initializeProcessor bh files p inFilename outFilename).1.gDirectory
      = .created outFilename := by
  show directoryAfterSignalShape outFilename p.signal_shape_h_file_ p.signal_shape_h_name_
    = .created outFilename
  unfold directoryAfterSignalShape
  rw [if_neg]
  rintro ⟨hf, hn⟩
  rcases hsig with h | h
  · exact hf h
  · exact hn h

theorem isFitResult_of_mem_hists {ρ : Type} (hs : List TH1F) (obj : TObject ρ)
    (h : obj ∈ hs.map TObject.hist) : obj.isFitResult = false := by
  obtain ⟨x, _, rfl⟩ := List.mem_map.mp h
  rfl

theorem initializedProcessor_gDirectory :
    initializedProcessor.gDirectory = .created "out.root" := rfl

/-- C8, as stated, fails: in the sample run with three toys and no signal shape, the
objects written into the output file by `initialize` and `process` number four, not
`1 + 3 + 3`, and no `Write()` at all is called on a search result, although three
results were collected. -/
theorem C8_counterexample :
    initializedProcessor.nToys_ = 3
      ∧ ∃ r, process lcg countingHunter 1 initializedProcessor = some r
        ∧ r.toy_results.length = 3
        ∧ (writtenTo (.created "out.root")
            ((initializeProcessor countingHunter noFiles configuredProcessor "in.root"
              "out.root").2 ++ r.log)).length = 4
        ∧ (writtenTo (.created "out.root")
            ((initializeProcessor countingHunter noFiles configuredProcessor "in.root"
              "out.root").2 ++ r.log)).length ≠ 1 + 3 + 3
        ∧ ∀ obj ∈ writeCalls
            ((initializeProcessor countingHunter noFiles configuredProcessor "in.root"
              "out.root").2 ++ r.log), obj.isFitResult = false := by
  have hw : ∀ (m : ℚ) (e : Nat),
      writtenTo (.created "out.root")
        ((initializeProcessor countingHunter noFiles configuredProcessor "in.root"
            "out.root").2
          ++ ((.SetSeed 0 :: genLog initializedProcessor.nToys_.toNat)
            ++ fitLog initializedProcessor.gDirectory m 0
                ((List.range initializedProcessor.nToys_.toNat).map (toyOf lcg 1))
                (searchResults countingHunter m
                  ((List.range initializedProcessor.nToys_.toNat).map (toyOf lcg 1)) e)))
        = TObject.hist buildMassSpectrum
            :: ((List.range initializedProcessor.nToys_.toNat).map (toyOf lcg 1)).map
                TObject.hist := by
    intro m e
    rw [initializedProcessor_gDirectory, writtenTo_append, writtenTo_initializeProcessor,
      writtenTo_processLog _ _ _ _ _ (searchResults_length _ _ _ _)]
    rfl
  have hc : ∀ (m : ℚ) (e : Nat),
      writeCalls
        ((initializeProcessor countingHunter noFiles configuredProcessor "in.root"
            "out.root").2
          ++ ((.SetSeed 0 :: genLog initializedProcessor.nToys_.toNat)
            ++ fitLog initializedProcessor.gDirectory m 0
                ((List.range initializedProcessor.nToys_.toNat).map (toyOf lcg 1))
                (searchResults countingHunter m
                  ((List.range initializedProcessor.nToys_.toNat).map (toyOf lcg 1)) e)))
        = TObject.hist buildMassSpectrum
            :: ((List.range initializedProcessor.nToys_.toNat).map (toyOf lcg 1)).map
                TObject.hist := by
    intro m e
    rw [writeCalls_append, writeCalls_initializeProcessor,
      writeCalls_processLog _ _ _ _ _ (searchResults_length _ _ _ _)]
    rfl
  refine ⟨initializedProcessor_nToys, _,
    process_eq lcg countingHunter 1 initializedProcessor 0 initializedProcessor_bump_hunter,
    ?_, ?_, ?_, ?_⟩
  · rw [searchResults_length, List.length_map, List.length_range, initializedProcessor_nToys]
    rfl
  · rw [hw, List.length_cons, List.length_map, List.length_map, List.length_range,
      initializedProcessor_nToys]
    rfl
  · rw [hw, List.length_cons, List.length_map, List.length_map, List.length_range,
      initializedProcessor_nToys]
    decide
  · intro obj hobj
    rw [hc] at hobj
    rcases List.mem_cons.mp hobj with h | h
    · rw [h]; rfl
    · exact isFitResult_of_mem_hists _ _ h

/-- C8, amended: when `initialize` opens no signal-shape file (at least one of
`signal_shape_h_file_`, `signal_shape_h_name_` is empty), then after `initialize`
followed by `process` the objects written into the output file are: the background
spectrum, once, in `initialize`, and every generated toy `toy<k>_h`, in index order,
each right after the `performSearch` call on that toy; that makes
`max(nToys_, 0) + 1` written histograms.  The search results are collected, one per
toy, and no `Write()` is called on any of them. -/
theorem C8_written_objects {σ ε ρ : Type} (rng : TRandom3 σ) (bh : BumpHunter ε ρ)
    (uuid : Nat) (files : String → String → Option TH1F) (p : BhFitSandboxProcessor ε)
    (inFilename outFilename : String)
    (hsig : p.signal_shape_h_file_ = "" ∨ p.signal_shape_h_name_ = "") :
    ∃ r, process rng bh uuid (initializeProcessor bh files p inFilename outFilename).1 = some r
      ∧ writtenTo (.created outFilename)
          (initializeProcessor bh files p inFilename outFilename).2
          = [.hist buildMassSpectrum]
      ∧ writtenTo (.created outFilename) r.log = r.toy_hists.map TObject.hist
      ∧ r.toy_hists.length = p.nToys_.toNat
      ∧ r.toy_results.length = p.nToys_.toNat
      ∧ (∀ k, k < p.nToys_.toNat →
          ∃ h, r.toy_hists[k]? = some h ∧ h.fName = "toy" ++ toString k ++ "_h")
      ∧ r.log = (.SetSeed 0 :: genLog p.nToys_.toNat)
          ++ fitLog (.created outFilename) p.mass_hypo_ 0 r.toy_hists r.toy_results
      ∧ (writtenTo (.created outFilename)
          ((initializeProcessor bh files p inFilename outFilename).2 ++ r.log)).length
          = p.nToys_.toNat + 1
      ∧ ∀ obj ∈ writeCalls ((initializeProcessor bh files p inFilename outFilename).2 ++ r.log),
          obj.isFitResult = false := by
  obtain ⟨e, he⟩ := initializeProcessor_bump_hunter bh files p inFilename outFilename
  have hdir := initializeProcessor_gDirectory bh files p inFilename outFilename hsig
  refine ⟨_, process_eq rng bh uuid _ e he, writtenTo_initializeProcessor _ _ _ _ _,
    ?_, ?_, ?_, ?_, ?_, ?_, ?_⟩
  · rw [hdir]
    exact writtenTo_processLog _ _ _ _ _ (searchResults_length _ _ _ _)
  · rw [List.length_map, List.length_range, initializeProcessor_nToys]
  · rw [searchResults_length, List.length_map, List.length_range, initializeProcessor_nToys]
  · intro k hk
    rw [initializeProcessor_nToys]
    exact ⟨toyOf rng uuid k, getElem?_map_range _ _ _ hk, toyOf_fName rng uuid k⟩
  · rw [hdir]
    rfl
  · rw [hdir, writtenTo_append, writtenTo_initializeProcessor,
      writtenTo_processLog _ _ _ _ _ (searchResults_length _ _ _ _), initializeProcessor_nToys]
    simp only [List.singleton_append, List.length_cons, List.length_map, List.length_range]
  · intro obj hobj
    rw [writeCalls_append, writeCalls_initializeProcessor,
      writeCalls_processLog _ _ _ _ _ (searchResults_length _ _ _ _)] at hobj
    rcases List.mem_cons.mp hobj with h | h
    · rw [h]; rfl
    · exact isFitResult_of_mem_hists _ _ h

/-- Witness for C8, amended: the sample run, which names no signal shape. -/
theorem C8_written_objects_witness :
    (configuredProcessor.signal_shape_h_file_ = ""
        ∨ configuredProcessor.signal_shape_h_name_ = "")
      ∧ ∃ r, process lcg countingHunter 1
            (initializeProcessor countingHunter noFiles configuredProcessor "in.root"
              "out.root").1 = some r
        ∧ writtenTo (.created "out.root")
            (initializeProcessor countingHunter noFiles configuredProcessor "in.root"
              "out.root").2
            = [.hist buildMassSpectrum]
        ∧ writtenTo (.created "out.root") r.log = r.toy_hists.map TObject.hist
        ∧ r.toy_hists.length = configuredProcessor.nToys_.toNat
        ∧ r.toy_results.length = configuredProcessor.nToys_.toNat
        ∧ (∀ k, k < configuredProcessor.nToys_.toNat →
            ∃ h, r.toy_hists[k]? = some h ∧ h.fName = "toy" ++ toString k ++ "_h")
        ∧ r.log = (.SetSeed 0 :: genLog configuredProcessor.nToys_.toNat)
            ++ fitLog (.created "out.root") configuredProcessor.mass_hypo_ 0 r.toy_hists
                r.toy_results
        ∧ (writtenTo (.created "out.root")
            ((initializeProcessor countingHunter noFiles configuredProcessor "in.root"
              "out.root").2 ++ r.log)).length
            = configuredProcessor.nToys_.toNat + 1
        ∧ ∀ obj ∈ writeCalls
            ((initializeProcessor countingHunter noFiles configuredProcessor "in.root"
              "out.root").2 ++ r.log),
            obj.isFitResult = false :=
  ⟨Or.inl rfl, C8_written_objects lcg countingHunter 1 noFiles configuredProcessor "in.root"
    "out.root" (Or.inl rfl)⟩

/-! ## The signal-shape block of `initialize` -/

theorem warnings_append {ρ : Type} (l1 l2 : List (Event ρ)) :
    warnings (l1 ++ l2) = warnings l1 ++ warnings l2 := by
  induction l1 with
  | nil => rfl
  | cons e rest ih =>
    cases e with
    | cout items =>
      simp only [List.cons_append, warnings]
      split_ifs <;> simp [ih]
    | _ => simp [warnings, ih]

theorem openCalls_append {ρ : Type} (l1 l2 : List (Event ρ)) :
    openCalls (l1 ++ l2) = openCalls l1 ++ openCalls l2 := by
  induction l1 with
  | nil => rfl
  | cons e rest ih => cases e <;> simp [openCalls, ih]

theorem getCalls_append {ρ : Type} (l1 l2 : List (Event ρ)) :
    getCalls (l1 ++ l2) = getCalls l1 ++ getCalls l2 := by
  induction l1 with
  | nil => rfl
  | cons e rest ih => cases e <;> simp [getCalls, ih]

theorem loadSignalShape_both {ρ : Type} (files : String → String → Option TH1F)
    (f n : String) (sig : Option TH1F) (hf : f ≠ "") (hn : n ≠ "") :
    (loadSignalShape files f n sig : Option TH1F × List (Event ρ))
      = (files f n, [.TFileOpen f "", .Get f n]) := by
  unfold loadSignalShape
  rw [if_pos ⟨hf, hn⟩]

theorem loadSignalShape_noHistogram {ρ : Type} (files : String → String → Option TH1F)
    (f n : String) (sig : Option TH1F) (hf : f ≠ "") (hn : n = "") :
    (loadSignalShape files f n sig : Option TH1F × List (Event ρ))
      = (sig, [.cout [warnNoHistogram]]) := by
  unfold loadSignalShape
  rw [if_neg (fun h => h.2 hn), if_pos ⟨hf, hn⟩]

theorem loadSignalShape_noFile {ρ : Type} (files : String → String → Option TH1F)
    (f n : String) (sig : Option TH1F) (hf : f = "") (hn : n ≠ "") :
    (loadSignalShape files f n sig : Option TH1F × List (Event ρ))
      = (sig, [.cout [warnNoFile]]) := by
  unfold loadSignalShape
  rw [if_neg (fun h => h.1 hf), if_neg (fun h => h.1 hf), if_pos ⟨hf, hn⟩]

theorem loadSignalShape_neither {ρ : Type} (files : String → String → Option TH1F)
    (f n : String) (sig : Option TH1F) (hf : f = "") (hn : n = "") :
    (loadSignalShape files f n sig : Option TH1F × List (Event ρ)) = (sig, []) := by
  unfold loadSignalShape
  rw [if_neg (fun h => h.1 hf), if_neg (fun h => h.1 hf), if_neg (fun h => h.2 hn)]

theorem warnings_debug {ρ : Type} (c : Prop) [Decidable c] :
    warnings (if c then [(.enableDebug : Event ρ)] else []) = [] := by
  split_ifs <;> rfl

theorem openCalls_debug {ρ : Type} (c : Prop) [Decidable c] :
    openCalls (if c then [(.enableDebug : Event ρ)] else []) = [] := by
  split_ifs <;> rfl

theorem getCalls_debug {ρ : Type} (c : Prop) [Decidable c] :
    getCalls (if c then [(.enableDebug : Event ρ)] else []) = [] := by
  split_ifs <;> rfl

theorem warnings_preamble {ρ : Type} (o a1 b1 c1 a2 b2 c2 : String) (d : Directory)
    (h : TH1F) :
    warnings ([.TFileOpen o "RECREATE", .cd o, .Write d (.hist h), .cout [a1, b1, c1],
      .cout [a2, b2, c2]] : List (Event ρ)) = [] := by
  simp [warnings]

theorem warnings_initializeProcessor {ε ρ : Type} (bh : BumpHunter ε ρ)
    (files : String → String → Option TH1F) (p : BhFitSandboxProcessor ε)
    (inFilename outFilename : String) :
    warnings (initializeProcessor bh files p inFilename outFilename).2
      = warnings (loadSignalShape files p.signal_shape_h_file_ p.signal_shape_h_name_
          p.signal_shape_h_ : Option TH1F × List (Event ρ)).2 := by
  rw [initializeProcessor_log, warnings_append, warnings_append, warnings_append,
    warnings_debug, warnings_preamble]
  simp only [warnings, List.nil_append, List.append_nil]

theorem openCalls_initializeProcessor {ε ρ : Type} (bh : BumpHunter ε ρ)
    (files : String → String → Option TH1F) (p : BhFitSandboxProcessor ε)
    (inFilename outFilename : String) :
    openCalls (initializeProcessor bh files p inFilename outFilename).2
      = (outFilename, "RECREATE")
        :: openCalls (loadSignalShape files p.signal_shape_h_file_ p.signal_shape_h_name_
          p.signal_shape_h_ : Option TH1F × List (Event ρ)).2 := by
  rw [initializeProcessor_log, openCalls_append, openCalls_append, openCalls_append,
    openCalls_debug]
  simp only [openCalls, List.append_nil, List.singleton_append]

theorem getCalls_initializeProcessor {ε ρ : Type} (bh : BumpHunter ε ρ)
    (files : String → String → Option TH1F) (p : BhFitSandboxProcessor ε)
    (inFilename outFilename : String) :
    getCalls (initializeProcessor bh files p inFilename outFilename).2
      = getCalls (loadSignalShape files p.signal_shape_h_file_ p.signal_shape_h_name_
          p.signal_shape_h_ : Option TH1F × List (Event ρ)).2 := by
  rw [initializeProcessor_log, getCalls_append, getCalls_append, getCalls_append,
    getCalls_debug]
  simp only [getCalls, List.nil_append, List.append_nil]

theorem signal_shape_initializeProcessor {ε ρ : Type} (bh : BumpHunter ε ρ)
    (files : String → String → Option TH1F) (p : BhFitSandboxProcessor ε)
    (inFilename outFilename : String) :
    (initializeProcessor bh files p inFilename outFilename).1.signal_shape_h_
      = (loadSignalShape files p.signal_shape_h_file_ p.signal_shape_h_name_
          p.signal_shape_h_ : Option TH1F × List (Event ρ)).1 := rfl

theorem warnings_noHistogram {ρ : Type} :
    warnings ([.cout [warnNoHistogram]] : List (Event ρ)) = [warnNoHistogram] := by
  simp [warnings]

theorem warnings_noFile {ρ : Type} :
    warnings ([.cout [warnNoFile]] : List (Event ρ)) = [warnNoFile] := by
  simp [warnings]

/-- C6: `initialize` always runs to its end (the engine is constructed).  When exactly
one of `signal_shape_h_file_`, `signal_shape_h_name_` is empty it prints exactly one
warning, opens no file but the output file, calls no `Get`, and leaves
`signal_shape_h_` as it was (unset); when both are empty it prints no warning and
loads nothing either; when both are non-empty it opens the signal file and sets
`signal_shape_h_` to what `Get` yields, without a warning.  So a `Get` happens only
when both are non-empty. -/
theorem C6_partial_signal_shape {ε ρ : Type} (bh : BumpHunter ε ρ)
    (files : String → String → Option TH1F) (p : BhFitSandboxProcessor ε)
    (inFilename outFilename : String) :
    (∃ e, (initializeProcessor bh files p inFilename outFilename).1.bump_hunter_ = some e)
      ∧ ((p.signal_shape_h_file_ ≠ "" ∧ p.signal_shape_h_name_ = "")
            ∨ (p.signal_shape_h_file_ = "" ∧ p.signal_shape_h_name_ ≠ "") →
          (warnings (initializeProcessor bh files p inFilename outFilename).2).length = 1
          ∧ openCalls (initializeProcessor bh files p inFilename outFilename).2
              = [(outFilename, "RECREATE")]
          ∧ getCalls (initializeProcessor bh files p inFilename outFilename).2 = []
          ∧ (initializeProcessor bh files p inFilename outFilename).1.signal_shape_h_
              = p.signal_shape_h_)
      ∧ (p.signal_shape_h_file_ = "" ∧ p.signal_shape_h_name_ = "" →
          warnings (initializeProcessor bh files p inFilename outFilename).2 = []
          ∧ openCalls (initializeProcessor bh files p inFilename outFilename).2
              = [(outFilename, "RECREATE")]
          ∧ getCalls (initializeProcessor bh files p inFilename outFilename).2 = []
          ∧ (initializeProcessor bh files p inFilename outFilename).1.signal_shape_h_
              = p.signal_shape_h_)
      ∧ (p.signal_shape_h_file_ ≠ "" ∧ p.signal_shape_h_name_ ≠ "" →
          warnings (initializeProcessor bh files p inFilename outFilename).2 = []
          ∧ openCalls (initializeProcessor bh files p inFilename outFilename).2
              = [(outFilename, "RECREATE"), (p.signal_shape_h_file_, "")]
          ∧ getCalls (initializeProcessor bh files p inFilename outFilename).2
              = [(p.signal_shape_h_file_, p.signal_shape_h_name_)]
          ∧ (initializeProcessor bh files p inFilename outFilename).1.signal_shape_h_
              = files p.signal_shape_h_file_ p.signal_shape_h_name_)
      ∧ (getCalls (initializeProcessor bh files p inFilename outFilename).2 ≠ [] →
          p.signal_shape_h_file_ ≠ "" ∧ p.signal_shape_h_name_ ≠ "") := by
  refine ⟨initializeProcessor_bump_hunter bh files p inFilename outFilename, ?_, ?_, ?_, ?_⟩
  · rintro (⟨hf, hn⟩ | ⟨hf, hn⟩)
    · rw [warnings_initializeProcessor, openCalls_initializeProcessor,
        getCalls_initializeProcessor, signal_shape_initializeProcessor,
        loadSignalShape_noHistogram files _ _ _ hf hn, warnings_noHistogram]
      exact ⟨rfl, rfl, rfl, rfl⟩
    · rw [warnings_initializeProcessor, openCalls_initializeProcessor,
        getCalls_initializeProcessor, signal_shape_initializeProcessor,
        loadSignalShape_noFile files _ _ _ hf hn, warnings_noFile]
      exact ⟨rfl, rfl, rfl, rfl⟩
  · rintro ⟨hf, hn⟩
    rw [warnings_initializeProcessor, openCalls_initializeProcessor,
      getCalls_initializeProcessor, signal_shape_initializeProcessor,
      loadSignalShape_neither files _ _ _ hf hn]
    exact ⟨rfl, rfl, rfl, rfl⟩
  · rintro ⟨hf, hn⟩
    rw [warnings_initializeProcessor, openCalls_initializeProcessor,
      getCalls_initializeProcessor, signal_shape_initializeProcessor,
      loadSignalShape_both files _ _ _ hf hn]
    exact ⟨rfl, rfl, rfl, rfl⟩
  · intro hg
    rw [getCalls_initializeProcessor] at hg
    by_cases hf : p.signal_shape_h_file_ = ""
    · by_cases hn : p.signal_shape_h_name_ = ""
      · rw [loadSignalShape_neither files _ _ _ hf hn] at hg
        exact absurd rfl hg
      · rw [loadSignalShape_noFile files _ _ _ hf hn] at hg
        exact absurd rfl hg
    · by_cases hn : p.signal_shape_h_name_ = ""
      · rw [loadSignalShape_noHistogram files _ _ _ hf hn] at hg
        exact absurd rfl hg
      · exact ⟨hf, hn⟩

/-! ## `configure` -/

theorem configureTry_spec {ε : Type} (p : BhFitSandboxProcessor ε)
    (parameters : ParameterSet) :
    (∃ f what, ConfigOption.read parameters f = .error what
        ∧ (configureTry parameters p).2 = some what
        ∧ (∀ o : ConfigOption, o.position < f.position →
            ConfigOption.read parameters o
              = .ok (ConfigOption.member (configureTry parameters p).1 o))
        ∧ (∀ o : ConfigOption, f.position ≤ o.position →
            ConfigOption.member (configureTry parameters p).1 o = ConfigOption.member p o))
      ∨ ((configureTry parameters p).2 = none
        ∧ ∀ o : ConfigOption, ConfigOption.read parameters o
            = .ok (ConfigOption.member (configureTry parameters p).1 o)) := by
  unfold configureTry
  split
  · refine Or.inl ⟨.debug, _, ?_, rfl, ?_, ?_⟩
    · simp [ConfigOption.read, Except.map, *]
    · intro o h
      cases o <;> simp [ConfigOption.position] at h
    · intro o h
      cases o <;> simp [ConfigOption.position] at h <;> rfl
  · split
    · refine Or.inl ⟨.massSpectrum, _, ?_, rfl, ?_, ?_⟩
      · simp [ConfigOption.read, Except.map, *]
      · intro o h
        cases o <;> simp [ConfigOption.position] at h
        simp [ConfigOption.read, ConfigOption.member, Except.map, *]
      · intro o h
        cases o <;> simp [ConfigOption.position] at h <;> rfl
    · split
      · refine Or.inl ⟨.mass_hypo, _, ?_, rfl, ?_, ?_⟩
        · simp [ConfigOption.read, Except.map, *]
        · intro o h
          cases o <;> simp [ConfigOption.position] at h <;>
            simp [ConfigOption.read, ConfigOption.member, Except.map, *]
        · intro o h
          cases o <;> simp [ConfigOption.position] at h <;> rfl
      · split
        · refine Or.inl ⟨.win_factor, _, ?_, rfl, ?_, ?_⟩
          · simp [ConfigOption.read, Except.map, *]
          · intro o h
            cases o <;> simp [ConfigOption.position] at h <;>
              simp [ConfigOption.read, ConfigOption.member, Except.map, *]
          · intro o h
            cases o <;> simp [ConfigOption.position] at h <;> rfl
        · split
          · refine Or.inl ⟨.poly_order, _, ?_, rfl, ?_, ?_⟩
            · simp [ConfigOption.read, Except.map, *]
            · intro o h
              cases o <;> simp [ConfigOption.position] at h <;>
                simp [ConfigOption.read, ConfigOption.member, Except.map, *]
            · intro o h
              cases o <;> simp [ConfigOption.position] at h <;> rfl
          · split
            · refine Or.inl ⟨.seed, _, ?_, rfl, ?_, ?_⟩
              · simp [ConfigOption.read, Except.map, *]
              · intro o h
                cases o <;> simp [ConfigOption.position] at h <;>
                  simp [ConfigOption.read, ConfigOption.member, Except.map, *]
              · intro o h
                cases o <;> simp [ConfigOption.position] at h <;> rfl
            · split
              · refine Or.inl ⟨.nToys, _, ?_, rfl, ?_, ?_⟩
                · simp [ConfigOption.read, Except.map, *]
                · intro o h
                  cases o <;> simp [ConfigOption.position] at h <;>
                    simp [ConfigOption.read, ConfigOption.member, Except.map, *]
                · intro o h
                  cases o <;> simp [ConfigOption.position] at h <;> rfl
              · split
                · refine Or.inl ⟨.toy_sig_samples, _, ?_, rfl, ?_, ?_⟩
                  · simp [ConfigOption.read, Except.map, *]
                  · intro o h
                    cases o <;> simp [ConfigOption.position] at h <;>
                      simp [ConfigOption.read, ConfigOption.member, Except.map, *]
                  · intro o h
                    cases o <;> simp [ConfigOption.position] at h <;> rfl
                · split
                  · refine Or.inl ⟨.toy_bkg_mult, _, ?_, rfl, ?_, ?_⟩
                    · simp [ConfigOption.read, Except.map, *]
                    · intro o h
                      cases o <;> simp [ConfigOption.position] at h <;>
                        simp [ConfigOption.read, ConfigOption.member, Except.map, *]
                    · intro o h
                      cases o <;> simp [ConfigOption.position] at h <;> rfl
                  · split
                    · refine Or.inl ⟨.res_scale, _, ?_, rfl, ?_, ?_⟩
                      · simp [ConfigOption.read, Except.map, *]
                      · intro o h
                        cases o <;> simp [ConfigOption.position] at h <;>
                          simp [ConfigOption.read, ConfigOption.member, Except.map, *]
                      · intro o h
                        cases o <;> simp [ConfigOption.position] at h <;> rfl
                    · split
                      · refine Or.inl ⟨.signal_shape_h_name, _, ?_, rfl, ?_, ?_⟩
                        · simp [ConfigOption.read, Except.map, *]
                        · intro o h
                          cases o <;> simp [ConfigOption.position] at h <;>
                            simp [ConfigOption.read, ConfigOption.member, Except.map, *]
                        · intro o h
                          cases o <;> simp [ConfigOption.position] at h <;> rfl
                      · split
                        · refine Or.inl ⟨.signal_shape_h_file, _, ?_, rfl, ?_, ?_⟩
                          · simp [ConfigOption.read, Except.map, *]
                          · intro o h
                            cases o <;> simp [ConfigOption.position] at h <;>
                              simp [ConfigOption.read, ConfigOption.member, Except.map, *]
                          · intro o h
                            cases o <;> simp [ConfigOption.position] at h
                            rfl
                        · refine Or.inr ⟨rfl, ?_⟩
                          intro o
                          cases o <;> simp [ConfigOption.read, ConfigOption.member, Except.map, *]

theorem configure_fst {ε ρ : Type} (p : BhFitSandboxProcessor ε) (parameters : ParameterSet) :
    (@configure ε ρ p parameters).1 = (configureTry parameters p).1 := by
  unfold configure
  dsimp only
  cases (configureTry parameters p).2 <;> rfl

theorem configure_log_none {ε ρ : Type} (p : BhFitSandboxProcessor ε)
    (parameters : ParameterSet) (h : (configureTry parameters p).2 = none) :
    (@configure ε ρ p parameters).2 = [.cout ["Configuring BhFitSandboxProcessor", endl]] := by
  unfold configure
  dsimp only
  rw [h]

theorem configure_log_some {ε ρ : Type} (p : BhFitSandboxProcessor ε)
    (parameters : ParameterSet) (what : String)
    (h : (configureTry parameters p).2 = some what) :
    (@configure ε ρ p parameters).2
      = [.cout ["Configuring BhFitSandboxProcessor", endl], .cout [what, endl]] := by
  unfold configure
  dsimp only
  rw [h]

theorem ConfigOption.position_injective (a b : ConfigOption)
    (h : a.position = b.position) : a = b := by
  cases a <;> cases b <;> first | rfl | (simp [ConfigOption.position] at h)

/-- C7, as stated, fails: in the sample parameters without `poly_order` the options
`win_factor = 5` (read before it) and `nToys = 3` (read after it) are both present;
`configure` stores the first, but leaves `nToys_` at its previous value `50`. -/
theorem C7_counterexample :
    incompleteParameters.getInteger "poly_order"
        = .error (ParameterSet.missing "poly_order")
      ∧ incompleteParameters.getInteger "win_factor" = .ok 5
      ∧ incompleteParameters.getInteger "nToys" = .ok 3
      ∧ (@configure Nat Nat sampleProcessor incompleteParameters).1.win_factor_ = 5
      ∧ sampleProcessor.nToys_ = 50
      ∧ (@configure Nat Nat sampleProcessor incompleteParameters).1.nToys_ = 50
      ∧ (@configure Nat Nat sampleProcessor incompleteParameters).1.nToys_ ≠ 3 := by
  refine ⟨rfl, rfl, rfl, rfl, rfl, rfl, ?_⟩
  have h : (@configure Nat Nat sampleProcessor incompleteParameters).1.nToys_ = 50 := rfl
  rw [h]
  decide

/-- C7, amended: `configure` is lenient as a whole, not per field.  It always returns;
a read error is caught and its message printed.  An option is stored with its
configured value when its read and every read before it in source order succeed;
once a read fails, the member of the failing option and of every option read after
it keep the values they had before `configure`. -/
theorem C7_configure_in_order {ε ρ : Type} (p : BhFitSandboxProcessor ε)
    (parameters : ParameterSet) :
    (∀ (o : ConfigOption) (v : Element),
        (∀ o2 : ConfigOption, o2.position ≤ o.position →
          ∃ v2, ConfigOption.read parameters o2 = .ok v2) →
        ConfigOption.read parameters o = .ok v →
        ConfigOption.member (@configure ε ρ p parameters).1 o = v)
      ∧ (∀ (o o2 : ConfigOption) (what : String),
          o2.position ≤ o.position →
          ConfigOption.read parameters o2 = .error what →
          ConfigOption.member (@configure ε ρ p parameters).1 o = ConfigOption.member p o)
      ∧ ((∀ o2 : ConfigOption, ∃ v2, ConfigOption.read parameters o2 = .ok v2) →
          (@configure ε ρ p parameters).2
            = [.cout ["Configuring BhFitSandboxProcessor", endl]])
      ∧ (∀ (f : ConfigOption) (what : String),
          (∀ o2 : ConfigOption, o2.position < f.position →
            ∃ v2, ConfigOption.read parameters o2 = .ok v2) →
          ConfigOption.read parameters f = .error what →
          (@configure ε ρ p parameters).2
            = [.cout ["Configuring BhFitSandboxProcessor", endl], .cout [what, endl]]) := by
  refine ⟨?_, ?_, ?_, ?_⟩
  · intro o v hall hv
    rw [configure_fst]
    rcases configureTry_spec p parameters with ⟨f, what, hf, _, hlt, _⟩ | ⟨_, hok⟩
    · by_cases hpos : o.position < f.position
      · have h := hlt o hpos
        rw [hv] at h
        injection h with h
        exact h.symm
      · obtain ⟨v2, hv2⟩ := hall f (by omega)
        rw [hf] at hv2
        cases hv2
    · have h := hok o
      rw [hv] at h
      injection h with h
      exact h.symm
  · intro o o2 what hle herr
    rw [configure_fst]
    rcases configureTry_spec p parameters with ⟨f, what2, _, _, hlt, hge⟩ | ⟨_, hok⟩
    · by_cases hpos : o2.position < f.position
      · have h := hlt o2 hpos
        rw [herr] at h
        cases h
      · exact hge o (by omega)
    · have h := hok o2
      rw [herr] at h
      cases h
  · intro hall
    rcases configureTry_spec p parameters with ⟨f, what, hf, _, _, _⟩ | ⟨hnone, _⟩
    · obtain ⟨v2, hv2⟩ := hall f
      rw [hf] at hv2
      cases hv2
    · exact configure_log_none p parameters hnone
  · intro f what hbefore herr
    rcases configureTry_spec p parameters with ⟨g, what2, hg, hsome, hlt, _⟩ | ⟨_, hok⟩
    · have h1 : ¬ f.position < g.position := by
        intro hpos
        have h := hlt f hpos
        rw [herr] at h
        cases h
      have h2 : ¬ g.position < f.position := by
        intro hpos
        obtain ⟨v2, hv2⟩ := hbefore g hpos
        rw [hg] at hv2
        cases hv2
      have hfg : f = g := ConfigOption.position_injective f g (by omega)
      subst hfg
      rw [herr] at hg
      injection hg with hw
      subst hw
      exact configure_log_some p parameters what hsome
    · have h := hok f
      rw [herr] at h
      cases h

end BhFitSandbox
